import Mathlib

/-!
# Verification of the transit incident reconciliation engine

A shallow embedding, in Lean 4, of the incident-reconciliation subsystem of the
`publictransit-systems` repository: the station-name normalizers, the
GTFS-Realtime effect classifier, the equipment-outage detector, the WMATA
worker's incident processor, the ambiguous-station scorers (live NYC resolver
and the batch entrance-matching tool), and the incident aggregator's cache
logic (`getIncidents`).

Modelling conventions:
* JavaScript strings are `String` / `List Char`; the character-class regex
  replacements of the normalizers are modelled step by step as list maps and
  recursive scans that mirror the semantics of the corresponding
  `String.prototype.replace` calls (global flag, leftmost match first).
* `String.prototype.toLowerCase` is modelled character-wise by `Char.toLower`
  (the basic-latin case mapping); both normalizers use the identical lowercase
  step, so their comparison is unaffected.
* JavaScript objects used as string-keyed records (`Record<string, ...>`) are
  insertion-ordered association lists with unique keys; `Map` is modelled the
  same way.
* Fallible `fetch`/JSON steps are explicit: an HTTP response is a structure
  carrying its `ok` flag and its (possibly unparseable) decoded body, and
  functions that can throw return `Except`.
* Wall-clock instants (`Date.now()`) are integer milliseconds passed in
  explicitly; ISO date formatting (`toISOString`) is abstracted as an injected
  `Int → String` argument, since only the produced strings are carried around.
-/

/-! ## JS character classes and character-wise replacements -/

/-- The character class of the JavaScript regex `\s` (whitespace). -/
def isJsSpace (c : Char) : Bool :=
  c = ' ' ∨ c = '\t' ∨ c = '\n' ∨ c = '\u000b' ∨ c = '\u000c' ∨ c = '\r' ∨
  c = '\u00A0' ∨ c = '\u1680' ∨ (0x2000 ≤ c.toNat ∧ c.toNat ≤ 0x200A) ∨
  c = '\u2028' ∨ c = '\u2029' ∨ c = '\u202F' ∨ c = '\u205F' ∨ c = '\u3000' ∨
  c = '\uFEFF'

/-- The dash class (en dash `–`, em dash `—`, hyphen) used by both
normalizers. -/
def isDashChar (c : Char) : Bool :=
  c = '\u2013' ∨ c = '\u2014' ∨ c = '-'

/-- One character of the dashes-to-space replacement. -/
def dashToSpace (c : Char) : Char :=
  if isDashChar c then ' ' else c

/-- One character of the live resolver's slash replacement
(forward slash and backslash both become a space). -/
def slashLiveToSpace (c : Char) : Char :=
  if c = '/' ∨ c = '\\' then ' ' else c

/-- One character of the batch tool's slash replacement (forward slash only). -/
def slashBatchToSpace (c : Char) : Char :=
  if c = '/' then ' ' else c

/-- One character of the batch tool's curly-apostrophe normalization
(`‘` and `’` become a straight apostrophe). -/
def quoteToStraight (c : Char) : Char :=
  if c = '\u2018' ∨ c = '\u2019' then '\'' else c

/-! ## Stripping parenthetical suffixes

The parenthetical-stripping replacement (global) finds, left to right, each
`(`, runs to the first `)` after it, and deletes that span, continuing the
scan after it; a `(` with no later `)` matches nothing. -/

/-- The remainder of the list after the first `)` (this `)` included in what
is dropped). -/
def afterCloseParen (l : List Char) : List Char :=
  (l.dropWhile (fun d => d ≠ ')')).drop 1

/-- Worker for the parenthetical-stripping replacement; the fuel argument
only forces termination and is irrelevant as soon as it bounds the length of
the list (see `stripParensGo_fuel_irrel`). -/
def stripParensGo (fuel : Nat) (l : List Char) : List Char :=
  match fuel, l with
  | _, [] => []
  | 0, l => l
  | fuel + 1, c :: rest =>
    if c = '(' ∧ rest.contains ')' then
      stripParensGo fuel (afterCloseParen rest)
    else
      c :: stripParensGo fuel rest

/-- The parenthetical-stripping replacement on a character list. -/
def stripParens (l : List Char) : List Char :=
  stripParensGo l.length l

/-! ## Collapsing whitespace runs -/

/-- The whitespace-collapsing replacement: each maximal run of JS whitespace
becomes a single space. -/
def collapseWs : List Char → List Char
  | [] => []
  | [c] => if isJsSpace c then [' '] else [c]
  | c :: d :: rest =>
    if isJsSpace c ∧ isJsSpace d then collapseWs (d :: rest)
    else (if isJsSpace c then ' ' else c) :: collapseWs (d :: rest)

/-! ## Trimming -/

/-- `String.prototype.trim()`: strip JS whitespace from both ends. -/
def jsTrim (l : List Char) : List Char :=
  (l.dropWhile isJsSpace).rdropWhile isJsSpace

/-- Trimming on a `String`. -/
def jsStrTrim (s : String) : String :=
  ⟨jsTrim s.data⟩

/-- Lowercasing on a `String`, character-wise. -/
def jsStrToLower (s : String) : String :=
  ⟨s.data.map Char.toLower⟩

/-! ## The two station-name normalizers

`normalizeStationName` is the live resolver's function (`src/lib/data.ts`):
lowercase, dashes to space, slash and backslash to space, strip
parentheticals, collapse whitespace, trim.

`normalizeName` is the batch entrance-matching tool's function: lowercase,
dashes to space, curly apostrophes to straight, forward slash to space, strip
parentheticals, collapse whitespace, trim. -/

/-- Live `normalizeStationName`, on character lists. -/
def normalizeStationNameL (l : List Char) : List Char :=
  jsTrim (collapseWs (stripParens (((l.map Char.toLower).map dashToSpace).map slashLiveToSpace)))

/-- Live `normalizeStationName` (from `src/lib/data.ts`). -/
def normalizeStationName (s : String) : String :=
  ⟨normalizeStationNameL s.data⟩

/-- Batch `normalizeName`, on character lists. -/
def normalizeNameL (l : List Char) : List Char :=
  jsTrim (collapseWs (stripParens
    ((((l.map Char.toLower).map dashToSpace).map quoteToStraight).map slashBatchToSpace)))

/-- Batch `normalizeName` (entrance-matching script). -/
def normalizeName (s : String) : String :=
  ⟨normalizeNameL s.data⟩

/-! ## Canonical incident records -/

/-- Canonical equipment-outage record (`UnitOutage`). The `unitType` is kept
as a string: the WMATA worker produces it by lowercasing the feed's
`UnitType` field, whatever it contains. -/
structure UnitOutage where
  unitName : String
  unitType : String
  location : String
  symptom : String
  outOfServiceSince : String
  estimatedReturn : Option String
  updatedAt : String
deriving DecidableEq, Repr

/-- A JS object keyed by station id (`Record<string, UnitOutage[]>`),
modelled as an insertion-ordered association list with unique keys. -/
abbrev OutageMap := List (String × List UnitOutage)

/-- `if (!obj[k]) obj[k] = []; obj[k].push(u)` on an insertion-ordered
string-keyed object: append `u` to the entry of `k`, creating the key at the
end of the object if absent. -/
def pushOutage (m : OutageMap) (k : String) (u : UnitOutage) : OutageMap :=
  match m with
  | [] => [(k, [u])]
  | (k', v) :: rest =>
    if k' = k then (k', v ++ [u]) :: rest else (k', v) :: pushOutage rest k u

/-- `Object.keys` of an association-list object. -/
def mapKeys (m : OutageMap) : List String :=
  m.map Prod.fst

/-- The WMATA worker's counting loop over `Object.values(outagesByStation)`:
entries whose `unitType` is `"elevator"` count as elevators, every other
entry counts as an escalator. Returns (elevators, escalators). -/
def unitCounts (m : OutageMap) : Nat × Nat :=
  m.foldl
    (fun acc kv =>
      kv.2.foldl
        (fun acc o =>
          if o.unitType = "elevator" then (acc.1 + 1, acc.2) else (acc.1, acc.2 + 1))
        acc)
    (0, 0)

/-- The number of `UnitOutage` entries stored in an `OutageMap`. -/
def outageEntryCount (m : OutageMap) : Nat :=
  (m.map (fun kv => kv.2.length)).sum

/-- Canonical alert classification. -/
inductive AlertType where
  | delay
  | emergency
  | advisory
deriving DecidableEq, Repr

/-- Canonical service alert. -/
structure ServiceAlert where
  id : String
  type : AlertType
  title : String
  description : String
  affectedLines : Option (List String)
  affectedStations : Option (List String)
  postedAt : String
  expiresAt : Option String
deriving DecidableEq, Repr

/-- The `summary` block of an `IncidentData`; `activeAlerts` is optional
(the WMATA worker's summary omits it). -/
structure IncidentSummary where
  totalOutages : Nat
  elevatorOutages : Nat
  escalatorOutages : Nat
  stationsAffected : Nat
  activeAlerts : Option Nat
deriving DecidableEq, Repr

/-- Per-system incident aggregate. -/
structure IncidentData where
  fetchedAt : String
  systemId : String
  summary : IncidentSummary
  alerts : Option (List ServiceAlert)
  outagesByStation : OutageMap
deriving DecidableEq, Repr

/-! ## GTFS-Realtime effect classification (`mapGtfsEffect`) -/

/-- Map the GTFS-RT `effect` enum to the canonical alert classification:
`1 = NO_SERVICE`, `2 = REDUCED_SERVICE`, `3 = SIGNIFICANT_DELAYS`,
`4 = DETOUR`, `6 = MODIFIED_SERVICE`; `none` models `null`/`undefined`
(the `switch` falls through to `default`). -/
def mapGtfsEffect (effect : Option Int) : AlertType :=
  match effect with
  | some e =>
    if e = 1 then .emergency
    else if e = 2 ∨ e = 3 ∨ e = 4 ∨ e = 6 then .delay
    else .advisory
  | none => .advisory

/-! ## Equipment-outage detection from alert text (`detectEquipmentOutages`) -/

/-- Contiguous-substring test on character lists. -/
def containsSub (sub : List Char) : List Char → Bool
  | [] => sub.isEmpty
  | c :: rest => List.isPrefixOf sub (c :: rest) || containsSub sub rest

/-- `String.prototype.includes`. -/
def strIncludes (s sub : String) : Bool :=
  containsSub sub.data s.data

/-- The elevator clause of the detector: the lowercased text mentions
"elevator" together with one of the disruption keywords. -/
def hasElevatorOutageText (fullText : String) : Bool :=
  let t := jsStrToLower fullText
  strIncludes t "elevator" &&
    (strIncludes t "out of service" || strIncludes t "unavailable" ||
     strIncludes t "closed" || strIncludes t "outage")

/-- The escalator clause of the detector. -/
def hasEscalatorOutageText (fullText : String) : Bool :=
  let t := jsStrToLower fullText
  strIncludes t "escalator" &&
    (strIncludes t "out of service" || strIncludes t "unavailable" ||
     strIncludes t "closed" || strIncludes t "outage")

/-- The synthetic elevator `UnitOutage` the detector pushes. -/
def syntheticElevatorOutage (headerText postedAt : String) (expiresAt : Option String) :
    UnitOutage :=
  { unitName := "Elevator", unitType := "elevator", location := headerText,
    symptom := "Out of service", outOfServiceSince := postedAt,
    estimatedReturn := expiresAt, updatedAt := postedAt }

/-- The synthetic escalator `UnitOutage` the detector pushes. -/
def syntheticEscalatorOutage (headerText postedAt : String) (expiresAt : Option String) :
    UnitOutage :=
  { unitName := "Escalator", unitType := "escalator", location := headerText,
    symptom := "Out of service", outOfServiceSince := postedAt,
    estimatedReturn := expiresAt, updatedAt := postedAt }

/-- Result of `detectEquipmentOutages`: the per-call elevator/escalator
counters plus the updated `outagesByStation` object (mutated in place in the
source, threaded explicitly here). -/
structure EquipmentResult where
  elevatorOutages : Nat
  escalatorOutages : Nat
  outagesByStation : OutageMap
deriving DecidableEq, Repr

/-- The loop body of `detectEquipmentOutages` for one affected station:
push the synthetic elevator outage if the elevator clause matched, then the
synthetic escalator outage if the escalator clause matched, bumping the
corresponding counters. -/
def detectStationStep (hasElev hasEsc : Bool) (headerText postedAt : String)
    (expiresAt : Option String) (acc : EquipmentResult) (stationId : String) :
    EquipmentResult :=
  let acc :=
    if hasElev then
      { acc with
        elevatorOutages := acc.elevatorOutages + 1,
        outagesByStation :=
          pushOutage acc.outagesByStation stationId
            (syntheticElevatorOutage headerText postedAt expiresAt) }
    else acc
  if hasEsc then
    { acc with
      escalatorOutages := acc.escalatorOutages + 1,
      outagesByStation :=
        pushOutage acc.outagesByStation stationId
          (syntheticEscalatorOutage headerText postedAt expiresAt) }
  else acc

/-- Shared helper `detectEquipmentOutages` of `src/lib/data.ts`: if the text
matches an equipment clause and some station was resolved, push one
synthetic outage per matching equipment keyword for every affected
station. -/
def detectEquipmentOutages (fullText : String) (affectedStations : List String)
    (outagesByStation : OutageMap) (headerText postedAt : String)
    (expiresAt : Option String) : EquipmentResult :=
  let hasElev := hasElevatorOutageText fullText
  let hasEsc := hasEscalatorOutageText fullText
  if (hasElev || hasEsc) && decide (0 < affectedStations.length) then
    affectedStations.foldl (detectStationStep hasElev hasEsc headerText postedAt expiresAt)
      ⟨0, 0, outagesByStation⟩
  else ⟨0, 0, outagesByStation⟩

/-! ## Text-pattern station search (`findStationsInTextByPattern`)

A pattern's regex is abstracted as its `test` function on the whole text;
the regex engine itself is outside the scope of this embedding. -/

/-- One entry of a station-pattern table. -/
structure StationPattern where
  test : String → Bool
  stationId : String

/-- `findStationsInTextByPattern`: collect, in table order and without
duplicates, the station ids of the patterns matching the text. -/
def findStationsInTextByPattern (text : String) (patterns : List StationPattern) :
    List String :=
  patterns.foldl
    (fun found p =>
      if p.test text && !(found.contains p.stationId) then found ++ [p.stationId]
      else found)
    []

/-! ## Sound Transit GTFS-RT pipeline (`fetchSoundTransitIncidents`)

The decoded protobuf feed is modelled structurally; a missing optional
message is an empty list / `none`. `translation[0]?.text ?? ""` of a
(possibly missing) translated string is modelled by keeping just the list
of translation texts. ISO timestamp formatting is an injected function. -/

/-- One `informed_entity` of a GTFS-RT alert. -/
structure GtfsInformedEntity where
  agencyId : Option String
  routeId : Option String
  stopId : Option String
deriving DecidableEq, Repr

/-- One `active_period` of a GTFS-RT alert (epoch seconds). -/
structure GtfsActivePeriod where
  startTime : Option Int
  endTime : Option Int
deriving DecidableEq, Repr

/-- A GTFS-RT alert message (the fields the pipelines read). -/
structure GtfsAlertMsg where
  headerText : List String
  descriptionText : List String
  effect : Option Int
  informedEntity : List GtfsInformedEntity
  activePeriod : List GtfsActivePeriod
deriving DecidableEq, Repr

/-- One `entity` of a GTFS-RT feed. -/
structure GtfsFeedEntity where
  id : String
  alert : Option GtfsAlertMsg
deriving DecidableEq, Repr

/-- JS `s || d` for strings: the default kicks in on the empty string. -/
def jsOrDefault (s d : String) : String :=
  if s = "" then d else s

/-- `translation?.[0]?.text || ""`. -/
def firstTranslation (ts : List String) : String :=
  ts.head?.getD ""

/-- Sound Transit route-id table. -/
def SOUND_TRANSIT_ROUTES : List (String × String) :=
  [("100479", "1-line"), ("1LINE", "1-line"), ("2LINE", "2-line"),
   ("TLINE", "t-line"), ("NLINE", "n-line"), ("SLINE", "s-line")]

/-- Affected-lines extraction of the Sound Transit pipeline: map each
truthy `routeId` through the route table, keeping table hits without
duplicates. -/
def stAffectedLines (ies : List GtfsInformedEntity) : List String :=
  ies.foldl
    (fun acc ie =>
      match ie.routeId with
      | some r =>
        if r ≠ "" then
          match List.lookup r SOUND_TRANSIT_ROUTES with
          | some lineId => if acc.contains lineId then acc else acc ++ [lineId]
          | none => acc
        else acc
      | none => acc)
    []

/-- `postedAt` from `activePeriod?.[0]?.start` (a truthy start becomes an
ISO string of `start * 1000` milliseconds, else "now"). -/
def gtfsPostedAt (epochToIso : Int → String) (nowIso : String)
    (ap : List GtfsActivePeriod) : String :=
  match ap.head? with
  | some p =>
    match p.startTime with
    | some t => if t ≠ 0 then epochToIso (t * 1000) else nowIso
    | none => nowIso
  | none => nowIso

/-- `expiresAt` from `activePeriod?.[0]?.end` (null when absent/falsy). -/
def gtfsExpiresAt (epochToIso : Int → String) (ap : List GtfsActivePeriod) :
    Option String :=
  match ap.head? with
  | some p =>
    match p.endTime with
    | some t => if t ≠ 0 then some (epochToIso (t * 1000)) else none
    | none => none
  | none => none

/-- Accumulator of the Sound Transit per-entity loop. -/
structure StState where
  alerts : List ServiceAlert
  outagesByStation : OutageMap
  elevatorOutages : Nat
  escalatorOutages : Nat
deriving Repr

/-- One iteration of the Sound Transit entity loop. -/
def stProcessEntity (patterns : List StationPattern) (nowIso : String)
    (epochToIso : Int → String) (st : StState) (entity : GtfsFeedEntity) : StState :=
  match entity.alert with
  | none => st
  | some alert =>
    let headerText := jsOrDefault (firstTranslation alert.headerText) "Service Alert"
    let descriptionText := firstTranslation alert.descriptionText
    let fullText := headerText ++ " " ++ descriptionText
    let alertType := mapGtfsEffect alert.effect
    let affectedLines := stAffectedLines alert.informedEntity
    let affectedStations := findStationsInTextByPattern fullText patterns
    let postedAt := gtfsPostedAt epochToIso nowIso alert.activePeriod
    let expiresAt := gtfsExpiresAt epochToIso alert.activePeriod
    let equipment :=
      detectEquipmentOutages fullText affectedStations st.outagesByStation headerText
        postedAt expiresAt
    { alerts := st.alerts ++
        [{ id := entity.id, type := alertType, title := headerText,
           description := jsStrTrim descriptionText,
           affectedLines := if 0 < affectedLines.length then some affectedLines else none,
           affectedStations :=
             if 0 < affectedStations.length then some affectedStations else none,
           postedAt := postedAt, expiresAt := expiresAt }],
      outagesByStation := equipment.outagesByStation,
      elevatorOutages := st.elevatorOutages + equipment.elevatorOutages,
      escalatorOutages := st.escalatorOutages + equipment.escalatorOutages }

/-- `fetchSoundTransitIncidents` on a successfully decoded feed: loop over
the entities, then assemble the `IncidentData` document. -/
def fetchSoundTransitIncidents (patterns : List StationPattern) (nowIso : String)
    (epochToIso : Int → String) (feed : List GtfsFeedEntity) : IncidentData :=
  let st := feed.foldl (stProcessEntity patterns nowIso epochToIso) ⟨[], [], 0, 0⟩
  { fetchedAt := nowIso, systemId := "sound-transit",
    summary :=
      { totalOutages := st.elevatorOutages + st.escalatorOutages,
        elevatorOutages := st.elevatorOutages,
        escalatorOutages := st.escalatorOutages,
        stationsAffected := (mapKeys st.outagesByStation).length,
        activeAlerts := some st.alerts.length },
    alerts := some st.alerts,
    outagesByStation := st.outagesByStation }

/-! ## WMATA worker: fetch and process elevator/escalator incidents -/

/-- A raw WMATA incident record (field names as in the feed). -/
structure WMATAIncident where
  UnitName : String
  UnitType : String
  StationCode : String
  StationName : String
  LocationDescription : String
  SymptomDescription : String
  DateOutOfServ : String
  DateUpdated : String
  EstimatedReturnToService : Option String
deriving DecidableEq, Repr

def STATION_CODE_MAP : List (String × String) := [
  ("A01", "metro-center"), ("A02", "farragut-north"), ("A03", "dupont-circle"),
  ("A04", "woodley-park"), ("A05", "cleveland-park"), ("A06", "van-ness-udc"),
  ("A07", "tenleytown-au"), ("A08", "friendship-heights"), ("A09", "bethesda"),
  ("A10", "medical-center"), ("A11", "grosvenor-strathmore"), ("A12", "white-flint"),
  ("A13", "twinbrook"), ("A14", "rockville"), ("A15", "shady-grove"),
  ("B01", "gallery-place"), ("B02", "judiciary-square"), ("B03", "union-station"),
  ("B04", "rhode-island-ave"), ("B05", "brookland-cua"), ("B06", "fort-totten"),
  ("B07", "takoma"), ("B08", "silver-spring"), ("B09", "forest-glen"),
  ("B10", "wheaton"), ("B11", "glenmont"), ("B35", "noma-gallaudet"),
  ("C01", "metro-center"), ("C02", "mcpherson-square"), ("C03", "farragut-west"),
  ("C04", "foggy-bottom"), ("C05", "rosslyn"), ("C06", "arlington-cemetery"),
  ("C07", "pentagon"), ("C08", "pentagon-city"), ("C09", "crystal-city"),
  ("C10", "reagan-national-airport"), ("C12", "braddock-road"), ("C13", "king-street"),
  ("C14", "eisenhower-ave"), ("C15", "huntington"), ("D01", "federal-triangle"),
  ("D02", "smithsonian"), ("D03", "l-enfant-plaza"), ("D04", "federal-center-sw"),
  ("D05", "capitol-south"), ("D06", "eastern-market"), ("D07", "potomac-ave"),
  ("D08", "stadium-armory"), ("D09", "minnesota-ave"), ("D10", "deanwood"),
  ("D11", "cheverly"), ("D12", "landover"), ("D13", "new-carrollton"),
  ("E01", "mt-vernon-sq"), ("E02", "shaw-howard"), ("E03", "u-street"),
  ("E04", "columbia-heights"), ("E05", "georgia-ave-petworth"), ("E06", "fort-totten"),
  ("E07", "west-hyattsville"), ("E08", "prince-georges-plaza"), ("E09", "college-park"),
  ("E10", "greenbelt"), ("F01", "gallery-place"), ("F02", "archives"),
  ("F03", "l-enfant-plaza"), ("F04", "waterfront"), ("F05", "navy-yard"),
  ("F06", "anacostia"), ("F07", "congress-heights"), ("F08", "southern-avenue"),
  ("F09", "naylor-road"), ("F10", "suitland"), ("F11", "branch-ave"),
  ("G01", "benning-road"), ("G02", "capitol-heights"), ("G03", "addison-road"),
  ("G04", "morgan-boulevard"), ("G05", "largo-town-center"), ("J02", "van-dorn-street"),
  ("J03", "franconia-springfield"), ("K01", "court-house"), ("K02", "clarendon"),
  ("K03", "virginia-square"), ("K04", "ballston-mu"), ("K05", "east-falls-church"),
  ("K06", "west-falls-church"), ("K07", "dunn-loring"), ("K08", "vienna"),
  ("N01", "mclean"), ("N02", "tysons-corner"), ("N03", "greensboro"),
  ("N04", "spring-hill"), ("N06", "wiehle-reston-east"), ("N07", "reston-town-center"),
  ("N08", "herndon"), ("N09", "innovation-center"), ("N10", "dulles-airport"),
  ("N11", "loudoun-gateway"), ("N12", "ashburn")]

/-- The parsed JSON body of the WMATA elevator-incidents endpoint: the
`ElevatorIncidents` array may be absent (`none`). -/
structure WmataElevatorBody where
  ElevatorIncidents : Option (List WMATAIncident)
deriving DecidableEq, Repr

/-- An HTTP response of the WMATA endpoint: its `ok` flag (2xx) and its
body, `none` when the body is not valid JSON (in which case
`response.json()` rejects). -/
structure WmataElevatorResponse where
  ok : Bool
  body : Option WmataElevatorBody
deriving DecidableEq, Repr

/-- `fetchWMATAIncidents`: throw on non-2xx, propagate the JSON failure of
`response.json()`, and default a missing `ElevatorIncidents` array to
`[]`. -/
def fetchWMATAIncidents (r : WmataElevatorResponse) : Except String (List WMATAIncident) :=
  if r.ok = false then Except.error "WMATA API error"
  else
    match r.body with
    | none => Except.error "invalid JSON body"
    | some body => Except.ok (body.ElevatorIncidents.getD [])

/-- The grouping loop body of `processIncidents`: skip the record if its
station code is unmapped, else push its `UnitOutage` under the mapped
station id. -/
def wmataGroupStep (m : OutageMap) (incident : WMATAIncident) : OutageMap :=
  match List.lookup incident.StationCode STATION_CODE_MAP with
  | none => m
  | some stationId =>
    pushOutage m stationId
      { unitName := incident.UnitName,
        unitType := jsStrToLower incident.UnitType,
        location := incident.LocationDescription,
        symptom := incident.SymptomDescription,
        outOfServiceSince := incident.DateOutOfServ,
        estimatedReturn := incident.EstimatedReturnToService,
        updatedAt := incident.DateUpdated }

/-- `processIncidents` of the WMATA worker: group the mapped incidents by
station (skipping unmapped station codes), count elevator/escalator units
among the grouped entries, but report `totalOutages` as the length of the
raw input list. -/
def processIncidents (nowIso : String) (incidents : List WMATAIncident) : IncidentData :=
  let outagesByStation := incidents.foldl wmataGroupStep []
  let counts := unitCounts outagesByStation
  { fetchedAt := nowIso, systemId := "wmata",
    summary :=
      { totalOutages := incidents.length,
        elevatorOutages := counts.1,
        escalatorOutages := counts.2,
        stationsAffected := (mapKeys outagesByStation).length,
        activeAlerts := none },
    alerts := none,
    outagesByStation := outagesByStation }

/-! ## NYC subway ambiguous-station disambiguation (live resolver) -/

/-- One candidate of the NYC station-name index (`{id, lines}`). -/
structure NycCand where
  id : String
  lines : List String
deriving DecidableEq, Repr

/-- MTA route-id aliases. -/
def NYC_SUBWAY_ROUTE_MAP : List (String × String) :=
  [("GS", "S-42"), ("FS", "S-franklin"), ("H", "S-rockaway")]

/-- `mapNycRouteId`: Staten Island Railway is out of scope; otherwise apply
the alias table, defaulting to the route id itself. -/
def mapNycRouteId (routeId : String) : Option String :=
  if routeId = "SI" then none
  else some ((List.lookup routeId NYC_SUBWAY_ROUTE_MAP).getD routeId)

/-- `split("/")` on a character list (JS semantics: the empty string splits
to one empty segment). -/
def splitOnSlash : List Char → List (List Char)
  | [] => [[]]
  | c :: rest =>
    match splitOnSlash rest with
    | [] => [[]]
    | seg :: segs => if c = '/' then [] :: seg :: segs else (c :: seg) :: segs

/-- The outage's line ids: split `trainno` on "/", trim, map through
`mapNycRouteId`, drop the `none`s. -/
def nycOutageLines (trainno : String) : List String :=
  ((splitOnSlash trainno.data).map (fun l => jsStrTrim ⟨l⟩)).filterMap mapNycRouteId

/-- The candidate-selection step of `fetchNycSubwayIncidents`: start from
the first candidate; with several candidates and a truthy `trainno`, score
each by line overlap and keep the best-scoring one (first wins ties) when
its overlap is positive. -/
def nycMatchStation (candidates : List NycCand) (trainno : String) : Option NycCand :=
  match candidates with
  | [] => none
  | c0 :: rest =>
    if 1 < (c0 :: rest).length ∧ trainno ≠ "" then
      let outageLines := nycOutageLines trainno
      let overlapOf := fun (c : NycCand) =>
        (c.lines.filter (fun l => outageLines.contains l)).length
      let s0 := (c0, overlapOf c0)
      let scoredRest := rest.map (fun c => (c, overlapOf c))
      let best := scoredRest.foldl (fun a b => if a.2 < b.2 then b else a) s0
      some (if 0 < best.2 then best.1 else c0)
    else some c0

/-! ## Batch entrance-matching tool: candidate scoring

`haversineMeters` is transcendental floating-point arithmetic; since only
the ordering of the computed distances feeds the selection, each candidate
carries its distance to the CSV row as a rational number (`Infinity` for a
candidate without coordinates never arises in the claims below). -/

/-- A scored candidate of the batch tool: station id, serving lines, and
its haversine distance to the CSV row. -/
structure BatchCand where
  id : String
  lines : List String
  dist : ℚ
deriving DecidableEq, Repr

/-- The CSV shuttle route `S` expands to the three canonical shuttles. -/
def SHUTTLE_ROUTE_MAP : List (String × List String) :=
  [("S", ["S-42", "S-franklin", "S-rockaway"])]

/-- `lineOverlap`: one point per CSV route contained in the station's
lines, plus one point per shuttle expansion contained in them. -/
def lineOverlap (csvRoutes stationLines : List String) : Nat :=
  csvRoutes.foldl
    (fun score route =>
      let score := if stationLines.contains route then score + 1 else score
      match List.lookup route SHUTTLE_ROUTE_MAP with
      | some mapped =>
        mapped.foldl (fun sc m => if stationLines.contains m then sc + 1 else sc) score
      | none => score)
    0

/-- Stable insertion (by nondecreasing distance) used to model the stable
JS `sort((a, b) => a.dist - b.dist)`. -/
def insertByDist (x : BatchCand × Nat) : List (BatchCand × Nat) → List (BatchCand × Nat)
  | [] => [x]
  | y :: rest => if y.1.dist ≤ x.1.dist then y :: insertByDist x rest else x :: y :: rest

/-- Stable sort by nondecreasing distance. -/
def sortByDist (l : List (BatchCand × Nat)) : List (BatchCand × Nat) :=
  l.foldr insertByDist []

/-- The candidate-selection step of the batch tool (step 5 of `main`): a
single candidate is taken as is; otherwise score all candidates, keep those
within 1 of the best line-overlap score, and pick the geographically
closest of them. -/
def batchPickBest (csvRoutes : List String) (candidates : List BatchCand) :
    Option BatchCand :=
  match candidates with
  | [] => none
  | [c] => some c
  | c0 :: c1 :: rest =>
    let all := c0 :: c1 :: rest
    let scored := all.map (fun c => (c, lineOverlap csvRoutes c.lines))
    let maxOverlap : Nat := (scored.map (fun s => s.2)).foldl max 0
    let tops := scored.filter
      (fun s => decide ((maxOverlap : Int) - 1 ≤ (s.2 : Int)) && decide ((0 : Int) ≤ (s.2 : Int)))
    let sorted := sortByDist tops
    sorted.head?.map (fun s => s.1)

/-! ## Incident aggregator (`getIncidents`) and its cache

The per-system dedicated pipelines all return `IncidentData` or `null` and
never throw (every adapter wraps its network and decode steps in
`try/catch`); the dispatch over the seven `systemId`s is abstracted as one
injected total function `fetchImpl`. `Date.now()` is the injected `now`. -/

/-- One entry of the incident cache `Map`. -/
structure CacheEntry where
  data : IncidentData
  fetchedAt : Int
deriving DecidableEq, Repr

/-- The incident cache `Map`, insertion-ordered with unique keys. -/
abbrev IncidentCache := List (String × CacheEntry)

/-- `Map.set`: replace in place, or append a new key at the end. -/
def setCacheEntry (cache : IncidentCache) (k : String) (e : CacheEntry) : IncidentCache :=
  match cache with
  | [] => [(k, e)]
  | (k', e') :: rest =>
    if k' = k then (k, e) :: rest else (k', e') :: setCacheEntry rest k e

/-- The systems `getIncidents` supports. -/
def supportedSystems : List String :=
  ["wmata", "bart", "sound-transit", "nyc-subway", "baltimore-metro",
   "baltimore-light-rail", "tokyo-metro"]

/-- Cache TTL: 5 minutes in milliseconds. -/
def CACHE_TTL : Int := 5 * 60 * 1000

/-- What one `getIncidents` call produces: its return value, the cache map
after the call, and whether the dedicated fetch pipeline ran. -/
structure GetIncidentsResult where
  result : Option IncidentData
  cache : IncidentCache
  didFetch : Bool
deriving Repr

/-- The fetch-and-store tail of `getIncidents`: run the system's pipeline;
store and return fresh data, or return `null` leaving the cache untouched. -/
def runIncidentFetch (fetchImpl : String → Option IncidentData) (now : Int)
    (cache : IncidentCache) (systemId : String) : GetIncidentsResult :=
  match fetchImpl systemId with
  | some d => ⟨some d, setCacheEntry cache systemId ⟨d, now⟩, true⟩
  | none => ⟨none, cache, true⟩

/-- `getIncidents`: unsupported system ids yield `null` at once; a cache
entry younger than the TTL is returned unchanged; otherwise the dedicated
pipeline runs (`runIncidentFetch`). -/
def getIncidents (fetchImpl : String → Option IncidentData) (now : Int)
    (cache : IncidentCache) (systemId : String) : GetIncidentsResult :=
  if supportedSystems.contains systemId = false then ⟨none, cache, false⟩
  else
    match List.lookup systemId cache with
    | some e =>
      if now - e.fetchedAt < CACHE_TTL then ⟨some e.data, cache, false⟩
      else runIncidentFetch fetchImpl now cache systemId
    | none => runIncidentFetch fetchImpl now cache systemId

/-! ## Auxiliary predicates and sample data used by the theorems below -/

/-- No `(` is followed (anywhere later) by a `)`: exactly the lists on which
the parenthetical-stripping replacement finds no match. -/
abbrev NoPair (l : List Char) : Prop :=
  l.Pairwise (fun a b => ¬(a = '(' ∧ b = ')'))

/-- The adjacency relation of a whitespace-collapsed list: no two adjacent
JS whitespace characters. -/
abbrev NoWsRun (l : List Char) : Prop :=
  l.Chain' (fun a b => ¬(isJsSpace a ∧ isJsSpace b))

/-- A sample `IncidentData` document.  -/
def sampleIncidentData : IncidentData :=
  { fetchedAt := "2024-01-01T00:00:00Z", systemId := "wmata",
    summary := ⟨0, 0, 0, 0, none⟩, alerts := none, outagesByStation := [] }

/-- A second sample `IncidentData` document, distinct from the first. -/
def sampleIncidentData2 : IncidentData :=
  { fetchedAt := "2024-01-01T00:07:00Z", systemId := "wmata",
    summary := ⟨0, 0, 0, 0, none⟩, alerts := none, outagesByStation := [] }

/-- A WMATA record whose `StationCode` is mapped (`A01`). -/
def mappedWmataIncident : WMATAIncident :=
  { UnitName := "A01X01", UnitType := "ESCALATOR", StationCode := "A01",
    StationName := "Metro Center", LocationDescription := "platform",
    SymptomDescription := "Service Call", DateOutOfServ := "2024-01-01",
    DateUpdated := "2024-01-02", EstimatedReturnToService := none }

/-- A WMATA record whose `StationCode` has no entry in the station-code
map. -/
def unmappedWmataIncident : WMATAIncident :=
  { UnitName := "X99X99", UnitType := "ELEVATOR", StationCode := "ZZZ",
    StationName := "Nowhere", LocationDescription := "mezzanine",
    SymptomDescription := "Service Call", DateOutOfServ := "2024-01-01",
    DateUpdated := "2024-01-02", EstimatedReturnToService := none }

/-! # Theorems -/

/-! ## Parenthetical-stripping basics -/

theorem afterCloseParen_length_le (l : List Char) :
    (afterCloseParen l).length ≤ l.length := by
  unfold afterCloseParen
  calc ((l.dropWhile (fun d => d ≠ ')')).drop 1).length
      ≤ (l.dropWhile (fun d => d ≠ ')')).length := by
        rw [List.length_drop]; omega
    _ ≤ l.length := (List.dropWhile_suffix _).length_le

theorem stripParensGo_fuel_irrel (fuel fuel' : Nat) (l : List Char)
    (h : l.length ≤ fuel) (h' : l.length ≤ fuel') :
    stripParensGo fuel l = stripParensGo fuel' l := by
  induction fuel generalizing fuel' l with
  | zero =>
    have h0 : l = [] := List.eq_nil_of_length_eq_zero (Nat.le_zero.mp h)
    subst h0
    cases fuel' <;> rfl
  | succ fuel ih =>
    match l with
    | [] => cases fuel' <;> rfl
    | c :: rest =>
      match fuel', h' with
      | fuel' + 1, h' =>
        have hr : rest.length ≤ fuel := by simpa using h
        have hr' : rest.length ≤ fuel' := by simpa using h'
        simp only [stripParensGo]
        by_cases hc : c = '(' ∧ rest.contains ')'
        · rw [if_pos hc, if_pos hc]
          exact ih fuel' (afterCloseParen rest)
            (le_trans (afterCloseParen_length_le rest) hr)
            (le_trans (afterCloseParen_length_le rest) hr')
        · rw [if_neg hc, if_neg hc]
          exact congrArg (c :: ·) (ih fuel' rest hr hr')

/-- Unfolding equation for `stripParens` on a cons cell. -/
theorem stripParens_cons (c : Char) (rest : List Char) :
    stripParens (c :: rest) =
      if c = '(' ∧ rest.contains ')' then
        stripParens (afterCloseParen rest)
      else
        c :: stripParens rest := by
  show stripParensGo (rest.length + 1) (c :: rest) = _
  simp only [stripParensGo]
  by_cases hc : c = '(' ∧ rest.contains ')'
  · rw [if_pos hc, if_pos hc]
    exact stripParensGo_fuel_irrel _ _ _ (afterCloseParen_length_le rest) le_rfl
  · rw [if_neg hc, if_neg hc]
    rfl

/-! ## Cache-map lemmas -/

theorem lookup_setCacheEntry_self (cache : IncidentCache) (k : String) (e : CacheEntry) :
    List.lookup k (setCacheEntry cache k e) = some e := by
  induction cache with
  | nil => simp [setCacheEntry, List.lookup]
  | cons kv rest ih =>
    obtain ⟨k', e'⟩ := kv
    by_cases h : k' = k
    · subst h
      simp [setCacheEntry, List.lookup]
    · simp only [setCacheEntry, if_neg h, List.lookup]
      rw [show (k == k') = false from beq_eq_false_iff_ne.mpr (Ne.symm h)]
      exact ih

/-! ## C10: a failed fetch leaves the cache map unchanged -/

/-- **C10.** When the fetch pipeline for a systemId yields no data (the
dedicated pipeline returned `null`), `getIncidents` leaves the incident
cache map entirely unchanged: no entry is added, removed, or overwritten,
so a pre-existing (even expired) cache entry survives a failed refresh
intact. -/
theorem C10_failed_fetch_preserves_cache
    (fetchImpl : String → Option IncidentData) (now : Int) (cache : IncidentCache)
    (systemId : String) (hfail : fetchImpl systemId = none) :
    (getIncidents fetchImpl now cache systemId).cache = cache := by
  have hr : (runIncidentFetch fetchImpl now cache systemId).cache = cache := by
    unfold runIncidentFetch
    rw [hfail]
  unfold getIncidents
  split
  · rfl
  · split
    · split
      · rfl
      · exact hr
    · exact hr

/-- Witness for C10 at a concrete state: an (expired) `wmata` entry and a
failing pipeline. -/
theorem C10_witness :
    (getIncidents (fun _ => none) 0 [("wmata", ⟨sampleIncidentData, 0⟩)] "wmata").cache =
      [("wmata", ⟨sampleIncidentData, 0⟩)] :=
  C10_failed_fetch_preserves_cache (fun _ => none) 0 _ "wmata" rfl

/-! ## C1: behavior of `getIncidents` when the pipeline fails -/

/-- **C1, counterexample.** The claim says that on pipeline failure
`getIncidents` returns the previously cached `IncidentData` whenever any
previous cache entry exists, including one older than the 5-minute TTL.
With an expired `wmata` entry present and a failing pipeline, the call
returns `none`, not the cached document: the stale entry is never served. -/
theorem C1_counterexample :
    (getIncidents (fun _ => none) CACHE_TTL [("wmata", ⟨sampleIncidentData, 0⟩)]
        "wmata").result = none ∧
    (List.lookup "wmata"
        ([("wmata", ⟨sampleIncidentData, 0⟩)] : IncidentCache)).isSome = true :=
  ⟨rfl, rfl⟩

/-- **C1 (amended).** Whenever the fetch pipeline runs and fails (no cache
entry younger than the TTL exists, and the pipeline returned `null`),
`getIncidents` returns `null` — even when an older-than-TTL cache entry
exists; that stale entry is retained in the map but is not returned — and
no exception propagates to the caller (all pipelines return `null` on
failure rather than throwing, and `getIncidents` is a total function of
the modelled state). -/
theorem C1_pipeline_failure_returns_null
    (fetchImpl : String → Option IncidentData) (now : Int) (cache : IncidentCache)
    (systemId : String)
    (hstale : ∀ e, List.lookup systemId cache = some e → CACHE_TTL ≤ now - e.fetchedAt)
    (hfail : fetchImpl systemId = none) :
    (getIncidents fetchImpl now cache systemId).result = none ∧
    (getIncidents fetchImpl now cache systemId).cache = cache := by
  have hr : runIncidentFetch fetchImpl now cache systemId = ⟨none, cache, true⟩ := by
    unfold runIncidentFetch
    rw [hfail]
  unfold getIncidents
  split
  · exact ⟨rfl, rfl⟩
  · split
    · rename_i e he
      rw [if_neg (by have := hstale e he; omega)]
      rw [hr]
      exact ⟨rfl, rfl⟩
    · rw [hr]
      exact ⟨rfl, rfl⟩

/-- Witness for C1 at a concrete state: an expired `bart` entry and a
failing pipeline; the call returns `none` and the cache is untouched. -/
theorem C1_witness :
    (getIncidents (fun _ => none) CACHE_TTL [("bart", ⟨sampleIncidentData, 0⟩)]
        "bart").result = none ∧
    (getIncidents (fun _ => none) CACHE_TTL [("bart", ⟨sampleIncidentData, 0⟩)]
        "bart").cache = [("bart", ⟨sampleIncidentData, 0⟩)] :=
  C1_pipeline_failure_returns_null (fun _ => none) CACHE_TTL _ "bart"
    (fun e he => by
      have he' : some (⟨sampleIncidentData, 0⟩ : CacheEntry) = some e := by
        simpa [List.lookup] using he
      obtain rfl : (⟨sampleIncidentData, 0⟩ : CacheEntry) = e := by injection he'
      decide)
    rfl

/-! ## C9: fresh-cache behavior of `getIncidents` -/

/-- **C9, counterexample.** The claim concludes that two calls within
5 minutes of each other, without an intervening refresh, return identical
data. Here the first call hits a cache entry that is 1 ms short of the TTL
(and so returns it without fetching); the second call, 2 ms later — well
within 5 minutes of the first — finds the entry expired, refetches, and
returns different data. -/
theorem C9_counterexample :
    (getIncidents (fun _ => none) (CACHE_TTL - 1) [("bart", ⟨sampleIncidentData, 0⟩)]
        "bart").result = some sampleIncidentData ∧
    (getIncidents (fun _ => some sampleIncidentData2) (CACHE_TTL + 1)
        (getIncidents (fun _ => none) (CACHE_TTL - 1) [("bart", ⟨sampleIncidentData, 0⟩)]
          "bart").cache
        "bart").result = some sampleIncidentData2 ∧
    sampleIncidentData2 ≠ sampleIncidentData ∧
    (CACHE_TTL + 1) - (CACHE_TTL - 1) < CACHE_TTL := by
  refine ⟨rfl, rfl, by decide, by decide⟩

/-- **C9 (amended).** (i) Whenever a cache entry younger than 5 minutes
exists for a supported systemId, `getIncidents` returns that entry's data
unchanged, performs no fetch, and leaves the cache unchanged — the
aggregator never issues a network call while a fresh entry exists.
(ii) Consequently, when a first call itself fetched and stored data (no
fresh entry beforehand, pipeline succeeded), any second call within
5 minutes of the first returns the identical data with no further fetch.
(A second call within 5 minutes of a first call that merely *read* an
older entry may refetch; see the counterexample.) -/
theorem C9_fresh_cache_semantics :
    (∀ (fetchImpl : String → Option IncidentData) (now : Int) (cache : IncidentCache)
        (systemId : String) (e : CacheEntry),
        List.lookup systemId cache = some e →
        now - e.fetchedAt < CACHE_TTL →
        supportedSystems.contains systemId = true →
        getIncidents fetchImpl now cache systemId = ⟨some e.data, cache, false⟩) ∧
    (∀ (fetchImpl fetchImpl' : String → Option IncidentData) (t0 t1 : Int)
        (cache : IncidentCache) (systemId : String) (d : IncidentData),
        supportedSystems.contains systemId = true →
        (∀ e, List.lookup systemId cache = some e → CACHE_TTL ≤ t0 - e.fetchedAt) →
        fetchImpl systemId = some d →
        t1 - t0 < CACHE_TTL →
        (getIncidents fetchImpl t0 cache systemId).result = some d ∧
        getIncidents fetchImpl' t1 (getIncidents fetchImpl t0 cache systemId).cache systemId =
          ⟨some d, (getIncidents fetchImpl t0 cache systemId).cache, false⟩) := by
  have fresh : ∀ (fetchImpl : String → Option IncidentData) (now : Int)
      (cache : IncidentCache) (systemId : String) (e : CacheEntry),
      List.lookup systemId cache = some e →
      now - e.fetchedAt < CACHE_TTL →
      supportedSystems.contains systemId = true →
      getIncidents fetchImpl now cache systemId = ⟨some e.data, cache, false⟩ := by
    intro fetchImpl now cache systemId e he hfresh hsup
    unfold getIncidents
    rw [if_neg (by rw [hsup]; simp)]
    rw [he]
    dsimp only
    rw [if_pos hfresh]
  refine ⟨fresh, ?_⟩
  intro fetchImpl fetchImpl' t0 t1 cache systemId d hsup hstale hfetch hwithin
  have h1 : getIncidents fetchImpl t0 cache systemId =
      ⟨some d, setCacheEntry cache systemId ⟨d, t0⟩, true⟩ := by
    have hr : runIncidentFetch fetchImpl t0 cache systemId =
        ⟨some d, setCacheEntry cache systemId ⟨d, t0⟩, true⟩ := by
      unfold runIncidentFetch
      rw [hfetch]
    unfold getIncidents
    rw [if_neg (by rw [hsup]; simp)]
    cases hl : List.lookup systemId cache with
    | some e =>
      dsimp only
      rw [if_neg (by have := hstale e hl; omega)]
      exact hr
    | none => exact hr
  constructor
  · rw [h1]
  · rw [h1]
    exact fresh fetchImpl' t1 _ systemId ⟨d, t0⟩
      (lookup_setCacheEntry_self cache systemId ⟨d, t0⟩) (by simpa using hwithin) hsup

/-- Witness for C9 at a concrete state: a fresh `bart` entry is returned
unchanged with no fetch. -/
theorem C9_witness :
    getIncidents (fun _ => some sampleIncidentData2) 1
        [("bart", ⟨sampleIncidentData, 0⟩)] "bart" =
      ⟨some sampleIncidentData, [("bart", ⟨sampleIncidentData, 0⟩)], false⟩ :=
  C9_fresh_cache_semantics.1 (fun _ => some sampleIncidentData2) 1 _ "bart"
    ⟨sampleIncidentData, 0⟩ rfl (by decide) (by decide)

/-! ## C6: GTFS-Realtime effect classification -/

/-- **C6.** Alert classification returns `emergency` exactly when the
effect is `NO_SERVICE` (1), `delay` exactly when it is one of
`REDUCED_SERVICE` (2), `SIGNIFICANT_DELAYS` (3), `DETOUR` (4),
`MODIFIED_SERVICE` (6), and `advisory` for every other value, including
`null`/`undefined` (`none`); in particular `NO_SERVICE` is always
classified `emergency`. -/
theorem C6_mapGtfsEffect_classification :
    (∀ e : Option Int, mapGtfsEffect e = AlertType.emergency ↔ e = some 1) ∧
    (∀ e : Option Int, mapGtfsEffect e = AlertType.delay ↔
      (e = some 2 ∨ e = some 3 ∨ e = some 4 ∨ e = some 6)) ∧
    (∀ e : Option Int, e ≠ some 1 →
      ¬(e = some 2 ∨ e = some 3 ∨ e = some 4 ∨ e = some 6) →
      mapGtfsEffect e = AlertType.advisory) ∧
    mapGtfsEffect none = AlertType.advisory ∧
    mapGtfsEffect (some 1) = AlertType.emergency := by
  refine ⟨fun e => ?_, fun e => ?_, fun e h1 h2 => ?_, rfl, rfl⟩
  · cases e with
    | none => simp [mapGtfsEffect]
    | some v =>
      simp only [mapGtfsEffect]
      split
      · rename_i h
        simp [h]
      · split <;> simp_all
  · cases e with
    | none => simp [mapGtfsEffect]
    | some v =>
      simp only [mapGtfsEffect]
      split
      · rename_i h
        subst h
        simp
      · split <;> simp_all
  · cases e with
    | none => rfl
    | some v =>
      simp only [mapGtfsEffect]
      rw [if_neg (by simpa using h1)]
      rw [if_neg (by simpa using h2)]

/-- Witness for C6: an out-of-range effect value is classified advisory. -/
theorem C6_witness : mapGtfsEffect (some 99) = AlertType.advisory :=
  C6_mapGtfsEffect_classification.2.2.1 (some 99) (by decide) (by decide)

/-! ## C8: WMATA JSON polling adapter error behavior -/

/-- **C8, counterexample.** The claim says the adapter fails exactly when
the HTTP response is non-2xx. A 2xx response whose body is not valid JSON
also fails (`response.json()` rejects and the error propagates), so the
"exactly" direction is false. -/
theorem C8_counterexample :
    fetchWMATAIncidents ⟨true, none⟩ = Except.error "invalid JSON body" ∧
    (⟨true, none⟩ : WmataElevatorResponse).ok = true :=
  ⟨rfl, rfl⟩

/-- **C8 (amended).** The WMATA elevator/escalator adapter fails exactly
when the HTTP response is non-2xx or its 2xx body is not valid JSON; on a
2xx response with a valid JSON body whose `ElevatorIncidents` array is
absent it returns the empty record list instead of failing. -/
theorem C8_wmata_adapter_errors :
    (∀ r : WmataElevatorResponse,
        (∃ msg, fetchWMATAIncidents r = Except.error msg) ↔
          (r.ok = false ∨ r.body = none)) ∧
    (∀ (r : WmataElevatorResponse) (b : WmataElevatorBody),
        r.ok = true → r.body = some b → b.ElevatorIncidents = none →
        fetchWMATAIncidents r = Except.ok []) := by
  constructor
  · intro r
    obtain ⟨ok, body⟩ := r
    cases ok
    · simp [fetchWMATAIncidents]
    · cases body with
      | none => simp [fetchWMATAIncidents]
      | some b => simp [fetchWMATAIncidents]
  · intro r b hok hbody habs
    obtain ⟨ok, body⟩ := r
    cases hok
    subst hbody
    simp [fetchWMATAIncidents, habs]

/-- Witness for C8: a 2xx response with a valid body missing the array
yields the empty list. -/
theorem C8_witness : fetchWMATAIncidents ⟨true, some ⟨none⟩⟩ = Except.ok [] :=
  C8_wmata_adapter_errors.2 ⟨true, some ⟨none⟩⟩ ⟨none⟩ rfl rfl rfl

/-! ## Outage-map lemmas -/

theorem lookup_pushOutage_self (m : OutageMap) (k : String) (u : UnitOutage) :
    List.lookup k (pushOutage m k u) = some ((List.lookup k m).getD [] ++ [u]) := by
  induction m with
  | nil => simp [pushOutage, List.lookup]
  | cons kv rest ih =>
    obtain ⟨k', v⟩ := kv
    by_cases h : k' = k
    · subst h
      simp [pushOutage, List.lookup]
    · simp only [pushOutage, if_neg h, List.lookup]
      rw [show (k == k') = false from beq_eq_false_iff_ne.mpr (Ne.symm h)]
      exact ih

theorem lookup_pushOutage_ne (m : OutageMap) (k : String) (u : UnitOutage) (k' : String)
    (h : k' ≠ k) :
    List.lookup k' (pushOutage m k u) = List.lookup k' m := by
  induction m with
  | nil => simp [pushOutage, List.lookup, beq_eq_false_iff_ne.mpr h]
  | cons kv rest ih =>
    obtain ⟨k'', v⟩ := kv
    by_cases h2 : k'' = k
    · subst h2
      simp only [pushOutage, if_pos rfl, List.lookup]
      rw [show (k' == k'') = false from beq_eq_false_iff_ne.mpr h]
    · simp only [pushOutage, if_neg h2, List.lookup]
      by_cases h3 : k' = k''
      · subst h3
        simp
      · rw [show (k' == k'') = false from beq_eq_false_iff_ne.mpr h3]
        exact ih

theorem mapKeys_pushOutage (m : OutageMap) (k : String) (u : UnitOutage) :
    mapKeys (pushOutage m k u) =
      if k ∈ mapKeys m then mapKeys m else mapKeys m ++ [k] := by
  induction m with
  | nil => simp [pushOutage, mapKeys]
  | cons kv rest ih =>
    obtain ⟨k', v⟩ := kv
    by_cases h : k' = k
    · subst h
      simp [pushOutage, mapKeys]
    · simp only [pushOutage, if_neg h, mapKeys, List.map_cons] at ih ⊢
      rw [ih]
      by_cases hm : k ∈ List.map Prod.fst rest
      · rw [if_pos hm, if_pos (by simp [hm])]
      · rw [if_neg hm, if_neg (by simp [hm, Ne.symm h])]
        simp

theorem nodup_keys_pushOutage (m : OutageMap) (k : String) (u : UnitOutage)
    (h : (mapKeys m).Nodup) : (mapKeys (pushOutage m k u)).Nodup := by
  rw [mapKeys_pushOutage]
  split
  · exact h
  · rename_i hnot
    simp [List.nodup_append, h, hnot]

theorem outageEntryCount_pushOutage (m : OutageMap) (k : String) (u : UnitOutage) :
    outageEntryCount (pushOutage m k u) = outageEntryCount m + 1 := by
  induction m with
  | nil => simp [pushOutage, outageEntryCount]
  | cons kv rest ih =>
    obtain ⟨k', v⟩ := kv
    by_cases h : k' = k
    · subst h
      simp [pushOutage, outageEntryCount]
      omega
    · simp only [pushOutage, if_neg h, outageEntryCount, List.map_cons, List.sum_cons] at ih ⊢
      omega

theorem unitCounts_inner (l : List UnitOutage) (acc : Nat × Nat) :
    (l.foldl
        (fun acc o =>
          if o.unitType = "elevator" then (acc.1 + 1, acc.2) else (acc.1, acc.2 + 1))
        acc).1 +
      (l.foldl
        (fun acc o =>
          if o.unitType = "elevator" then (acc.1 + 1, acc.2) else (acc.1, acc.2 + 1))
        acc).2 = acc.1 + acc.2 + l.length := by
  induction l generalizing acc with
  | nil => simp
  | cons o rest ih =>
    simp only [List.foldl_cons]
    by_cases h : o.unitType = "elevator"
    · rw [if_pos h, ih]
      simp only [List.length_cons]
      omega
    · rw [if_neg h, ih]
      simp only [List.length_cons]
      omega

theorem unitCounts_go (m : OutageMap) (acc : Nat × Nat) :
    (m.foldl
        (fun acc kv =>
          kv.2.foldl
            (fun acc o =>
              if o.unitType = "elevator" then (acc.1 + 1, acc.2) else (acc.1, acc.2 + 1))
            acc)
        acc).1 +
      (m.foldl
        (fun acc kv =>
          kv.2.foldl
            (fun acc o =>
              if o.unitType = "elevator" then (acc.1 + 1, acc.2) else (acc.1, acc.2 + 1))
            acc)
        acc).2 = acc.1 + acc.2 + outageEntryCount m := by
  induction m generalizing acc with
  | nil => simp [outageEntryCount]
  | cons kv rest ih =>
    simp only [List.foldl_cons]
    rw [ih]
    have hinner := unitCounts_inner kv.2 acc
    simp only [outageEntryCount, List.map_cons, List.sum_cons] at *
    omega

/-- The two counters of the WMATA counting loop always sum to the number of
`UnitOutage` entries stored in the object. -/
theorem unitCounts_spec (m : OutageMap) :
    (unitCounts m).1 + (unitCounts m).2 = outageEntryCount m := by
  have h := unitCounts_go m (0, 0)
  simpa [unitCounts] using h

theorem nodup_keys_wmataFold (incidents : List WMATAIncident) (m : OutageMap)
    (h : (mapKeys m).Nodup) :
    (mapKeys (incidents.foldl wmataGroupStep m)).Nodup := by
  induction incidents generalizing m with
  | nil => exact h
  | cons inc rest ih =>
    simp only [List.foldl_cons]
    apply ih
    unfold wmataGroupStep
    cases List.lookup inc.StationCode STATION_CODE_MAP with
    | none => exact h
    | some sid => exact nodup_keys_pushOutage m sid _ h

theorem entryCount_wmataFold (incidents : List WMATAIncident) (m : OutageMap)
    (h : ∀ inc ∈ incidents, (List.lookup inc.StationCode STATION_CODE_MAP).isSome = true) :
    outageEntryCount (incidents.foldl wmataGroupStep m) =
      outageEntryCount m + incidents.length := by
  induction incidents generalizing m with
  | nil => simp
  | cons inc rest ih =>
    simp only [List.foldl_cons]
    have hm : (List.lookup inc.StationCode STATION_CODE_MAP).isSome = true :=
      h inc (by simp)
    obtain ⟨sid, hsid⟩ := Option.isSome_iff_exists.mp hm
    have hstep : wmataGroupStep m inc = pushOutage m sid
        { unitName := inc.UnitName, unitType := jsStrToLower inc.UnitType,
          location := inc.LocationDescription, symptom := inc.SymptomDescription,
          outOfServiceSince := inc.DateOutOfServ,
          estimatedReturn := inc.EstimatedReturnToService,
          updatedAt := inc.DateUpdated } := by
      unfold wmataGroupStep
      rw [hsid]
    rw [hstep, ih _ (fun i hi => h i (by simp [hi])), outageEntryCount_pushOutage]
    simp only [List.length_cons]
    omega

/-! ## Equipment-detector lemmas -/

theorem nodup_keys_detectStep (hasElev hasEsc : Bool) (header postedAt : String)
    (expiresAt : Option String) (acc : EquipmentResult) (sid : String)
    (h : (mapKeys acc.outagesByStation).Nodup) :
    (mapKeys (detectStationStep hasElev hasEsc header postedAt expiresAt
        acc sid).outagesByStation).Nodup := by
  unfold detectStationStep
  by_cases h1 : hasElev = true <;> by_cases h2 : hasEsc = true <;>
    simp only [h1, h2, if_pos, if_neg, Bool.false_eq_true, if_true, if_false] <;>
    first
      | exact h
      | exact nodup_keys_pushOutage _ _ _ h
      | exact nodup_keys_pushOutage _ _ _ (nodup_keys_pushOutage _ _ _ h)

theorem nodup_keys_detectFold (hasElev hasEsc : Bool) (header postedAt : String)
    (expiresAt : Option String) (stations : List String) :
    ∀ acc : EquipmentResult, (mapKeys acc.outagesByStation).Nodup →
      (mapKeys ((stations.foldl (detectStationStep hasElev hasEsc header postedAt expiresAt)
          acc)).outagesByStation).Nodup := by
  induction stations with
  | nil => intro acc h; exact h
  | cons sid rest ih =>
    intro acc h
    simp only [List.foldl_cons]
    exact ih _ (nodup_keys_detectStep hasElev hasEsc header postedAt expiresAt acc sid h)

theorem nodup_keys_detect (fullText : String) (stations : List String) (m : OutageMap)
    (header postedAt : String) (expiresAt : Option String)
    (h : (mapKeys m).Nodup) :
    (mapKeys (detectEquipmentOutages fullText stations m header postedAt
        expiresAt).outagesByStation).Nodup := by
  unfold detectEquipmentOutages
  dsimp only
  by_cases hc : ((hasElevatorOutageText fullText || hasEscalatorOutageText fullText) &&
      decide (0 < stations.length)) = true
  · rw [if_pos hc]
    exact nodup_keys_detectFold _ _ header postedAt expiresAt stations ⟨0, 0, m⟩ h
  · rw [if_neg hc]
    exact h

/-! ## C2: summary invariants of the produced `IncidentData` -/

/-- **C2, counterexample.** A WMATA input list with a single record whose
`StationCode` is unmapped: `totalOutages` is the raw input length 1, but
both unit counters are 0, so `totalOutages` is not the sum. -/
theorem C2_counterexample :
    (processIncidents "2024-01-01T00:00:00Z" [unmappedWmataIncident]).summary.totalOutages ≠
      (processIncidents "2024-01-01T00:00:00Z" [unmappedWmataIncident]).summary.elevatorOutages +
        (processIncidents "2024-01-01T00:00:00Z"
            [unmappedWmataIncident]).summary.escalatorOutages := by
  decide

/-- **C2 (amended).** For every `IncidentData` produced by the WMATA
worker's `processIncidents`: `stationsAffected` equals the number of keys
of `outagesByStation` (whose keys are distinct), and `totalOutages` equals
the length of the raw input list — which equals
`elevatorOutages + escalatorOutages` exactly when every input record's
`StationCode` is mapped in the station-code map (records with unmapped
codes are dropped from the unit counters but still counted in
`totalOutages`). For every `IncidentData` produced by the Sound Transit
pipeline the claimed invariant holds unconditionally:
`totalOutages = elevatorOutages + escalatorOutages` and `stationsAffected`
is the number of (distinct) keys of `outagesByStation`. -/
theorem C2_summary_invariants :
    (∀ (nowIso : String) (incidents : List WMATAIncident),
        (mapKeys (processIncidents nowIso incidents).outagesByStation).Nodup ∧
        (processIncidents nowIso incidents).summary.stationsAffected =
          (mapKeys (processIncidents nowIso incidents).outagesByStation).length ∧
        (processIncidents nowIso incidents).summary.totalOutages = incidents.length ∧
        ((∀ inc ∈ incidents,
            (List.lookup inc.StationCode STATION_CODE_MAP).isSome = true) →
          (processIncidents nowIso incidents).summary.totalOutages =
            (processIncidents nowIso incidents).summary.elevatorOutages +
              (processIncidents nowIso incidents).summary.escalatorOutages)) ∧
    (∀ (patterns : List StationPattern) (nowIso : String) (epochToIso : Int → String)
        (feed : List GtfsFeedEntity),
        (mapKeys (fetchSoundTransitIncidents patterns nowIso epochToIso
            feed).outagesByStation).Nodup ∧
        (fetchSoundTransitIncidents patterns nowIso epochToIso feed).summary.stationsAffected =
          (mapKeys (fetchSoundTransitIncidents patterns nowIso epochToIso
              feed).outagesByStation).length ∧
        (fetchSoundTransitIncidents patterns nowIso epochToIso feed).summary.totalOutages =
          (fetchSoundTransitIncidents patterns nowIso epochToIso
              feed).summary.elevatorOutages +
            (fetchSoundTransitIncidents patterns nowIso epochToIso
                feed).summary.escalatorOutages) := by
  constructor
  · intro nowIso incidents
    refine ⟨nodup_keys_wmataFold incidents [] (by simp [mapKeys]), rfl, rfl, ?_⟩
    intro hmapped
    show incidents.length =
      (unitCounts (incidents.foldl wmataGroupStep [])).1 +
        (unitCounts (incidents.foldl wmataGroupStep [])).2
    rw [unitCounts_spec, entryCount_wmataFold incidents [] hmapped]
    simp [outageEntryCount]
  · intro patterns nowIso epochToIso feed
    refine ⟨?_, rfl, rfl⟩
    show (mapKeys (feed.foldl (stProcessEntity patterns nowIso epochToIso)
        ⟨[], [], 0, 0⟩).outagesByStation).Nodup
    have main : ∀ (fd : List GtfsFeedEntity) (st : StState),
        (mapKeys st.outagesByStation).Nodup →
        (mapKeys (fd.foldl (stProcessEntity patterns nowIso epochToIso)
            st).outagesByStation).Nodup := by
      intro fd
      induction fd with
      | nil => intro st h; exact h
      | cons entity rest ih =>
        intro st h
        simp only [List.foldl_cons]
        apply ih
        unfold stProcessEntity
        cases entity.alert with
        | none => exact h
        | some alert =>
          dsimp only
          apply nodup_keys_detect
          exact h
    exact main feed ⟨[], [], 0, 0⟩ (by simp [mapKeys])

/-- Witness for C2: a single mapped WMATA record; the total equals the sum
of the unit counters. -/
theorem C2_witness :
    (processIncidents "2024-01-01T00:00:00Z" [mappedWmataIncident]).summary.totalOutages =
      (processIncidents "2024-01-01T00:00:00Z" [mappedWmataIncident]).summary.elevatorOutages +
        (processIncidents "2024-01-01T00:00:00Z"
            [mappedWmataIncident]).summary.escalatorOutages :=
  (C2_summary_invariants.1 "2024-01-01T00:00:00Z" [mappedWmataIncident]).2.2.2 (by decide)

theorem detectStationStep_spec (hasElev hasEsc : Bool) (header postedAt : String)
    (expiresAt : Option String) (acc : EquipmentResult) (sid : String) :
    List.lookup sid (detectStationStep hasElev hasEsc header postedAt expiresAt
        acc sid).outagesByStation =
      some ((List.lookup sid acc.outagesByStation).getD [] ++
        (if hasElev then [syntheticElevatorOutage header postedAt expiresAt] else []) ++
        (if hasEsc then [syntheticEscalatorOutage header postedAt expiresAt] else [])) ∨
      (hasElev = false ∧ hasEsc = false) := by
  unfold detectStationStep
  by_cases h1 : hasElev = true <;> by_cases h2 : hasEsc = true
  · left
    simp only [h1, h2, if_true]
    rw [lookup_pushOutage_self, lookup_pushOutage_self]
    simp
  · left
    have h2' : hasEsc = false := by revert h2; cases hasEsc <;> simp
    simp only [h1, h2', if_true, if_false, Bool.false_eq_true]
    rw [lookup_pushOutage_self]
    simp
  · left
    have h1' : hasElev = false := by revert h1; cases hasElev <;> simp
    simp only [h1', h2, if_true, if_false, Bool.false_eq_true]
    rw [lookup_pushOutage_self]
    simp
  · right
    constructor
    · revert h1; cases hasElev <;> simp
    · revert h2; cases hasEsc <;> simp

theorem detectStationStep_frame (hasElev hasEsc : Bool) (header postedAt : String)
    (expiresAt : Option String) (acc : EquipmentResult) (sid s : String) (hs : s ≠ sid) :
    List.lookup s (detectStationStep hasElev hasEsc header postedAt expiresAt
        acc sid).outagesByStation = List.lookup s acc.outagesByStation := by
  unfold detectStationStep
  by_cases h1 : hasElev = true <;> by_cases h2 : hasEsc = true <;>
    simp only [h1, h2, if_true, if_false, Bool.false_eq_true] <;>
    first
      | rfl
      | rw [lookup_pushOutage_ne _ _ _ _ hs, lookup_pushOutage_ne _ _ _ _ hs]
      | rw [lookup_pushOutage_ne _ _ _ _ hs]

theorem detectStationStep_counts (hasElev hasEsc : Bool) (header postedAt : String)
    (expiresAt : Option String) (acc : EquipmentResult) (sid : String) :
    (detectStationStep hasElev hasEsc header postedAt expiresAt acc sid).elevatorOutages =
        acc.elevatorOutages + (if hasElev then 1 else 0) ∧
      (detectStationStep hasElev hasEsc header postedAt expiresAt acc sid).escalatorOutages =
        acc.escalatorOutages + (if hasEsc then 1 else 0) := by
  unfold detectStationStep
  by_cases h1 : hasElev = true <;> by_cases h2 : hasEsc = true <;>
    simp [h1, h2]

theorem detectFold_spec (hasElev hasEsc : Bool) (header postedAt : String)
    (expiresAt : Option String) (stations : List String) (hnd : stations.Nodup)
    (hkw : hasElev = true ∨ hasEsc = true) :
    ∀ acc : EquipmentResult,
      (∀ s ∈ stations,
        List.lookup s ((stations.foldl
            (detectStationStep hasElev hasEsc header postedAt expiresAt)
            acc)).outagesByStation =
          some ((List.lookup s acc.outagesByStation).getD [] ++
            (if hasElev then [syntheticElevatorOutage header postedAt expiresAt] else []) ++
            (if hasEsc then [syntheticEscalatorOutage header postedAt expiresAt] else []))) ∧
      (∀ s, s ∉ stations →
        List.lookup s ((stations.foldl
            (detectStationStep hasElev hasEsc header postedAt expiresAt)
            acc)).outagesByStation = List.lookup s acc.outagesByStation) ∧
      ((stations.foldl (detectStationStep hasElev hasEsc header postedAt expiresAt)
          acc)).elevatorOutages =
        acc.elevatorOutages + (if hasElev then stations.length else 0) ∧
      ((stations.foldl (detectStationStep hasElev hasEsc header postedAt expiresAt)
          acc)).escalatorOutages =
        acc.escalatorOutages + (if hasEsc then stations.length else 0) := by
  induction stations with
  | nil =>
    intro acc
    refine ⟨by simp, fun s _ => rfl, ?_, ?_⟩ <;> by_cases h : hasElev = true <;>
      by_cases h2 : hasEsc = true <;> simp [h, h2]
  | cons sid rest ih =>
    intro acc
    have hndr : rest.Nodup := (List.nodup_cons.mp hnd).2
    have hsid : sid ∉ rest := (List.nodup_cons.mp hnd).1
    have ihx := ih hndr
    simp only [List.foldl_cons]
    set acc1 := detectStationStep hasElev hasEsc header postedAt expiresAt acc sid with hacc1
    obtain ⟨ih1, ih2, ih3, ih4⟩ := ihx acc1
    refine ⟨?_, ?_, ?_, ?_⟩
    · intro s hs
      rcases List.mem_cons.mp hs with rfl | hsrest
      · rw [ih2 s hsid]
        rcases detectStationStep_spec hasElev hasEsc header postedAt expiresAt acc s with
          hgood | ⟨he1, he2⟩
        · exact hgood
        · rcases hkw with hk | hk
          · rw [he1] at hk; cases hk
          · rw [he2] at hk; cases hk
      · rw [ih1 s hsrest]
        rw [detectStationStep_frame hasElev hasEsc header postedAt expiresAt acc sid s
          (fun hEq => hsid (hEq ▸ hsrest))]
    · intro s hs
      have hs1 : s ≠ sid := fun hEq => hs (hEq ▸ List.mem_cons_self sid rest)
      have hs2 : s ∉ rest := fun hr => hs (List.mem_cons_of_mem sid hr)
      rw [ih2 s hs2]
      exact detectStationStep_frame hasElev hasEsc header postedAt expiresAt acc sid s hs1
    · rw [ih3, (detectStationStep_counts hasElev hasEsc header postedAt expiresAt acc sid).1]
      by_cases h : hasElev = true <;> simp [h] <;> omega
    · rw [ih4, (detectStationStep_counts hasElev hasEsc header postedAt expiresAt acc sid).2]
      by_cases h : hasEsc = true <;> simp [h] <;> omega

/-! ## C7: one synthetic outage per equipment keyword per affected station -/

/-- **C7.** When the combined alert text matches an equipment clause
(equipment keyword together with a disruption keyword) and the resolved
affected-station list is duplicate-free, the detector appends, for every
affected station, exactly one synthetic `UnitOutage` per matching equipment
keyword (elevator entry then escalator entry), touches no other station,
and its counters equal one count per matching keyword per station. -/
theorem C7_one_outage_per_keyword_per_station (fullText header postedAt : String)
    (expiresAt : Option String) (stations : List String) (m : OutageMap)
    (hnd : stations.Nodup)
    (hkw : hasElevatorOutageText fullText = true ∨ hasEscalatorOutageText fullText = true) :
    (∀ s ∈ stations,
      List.lookup s (detectEquipmentOutages fullText stations m header postedAt
          expiresAt).outagesByStation =
        some ((List.lookup s m).getD [] ++
          (if hasElevatorOutageText fullText then
            [syntheticElevatorOutage header postedAt expiresAt] else []) ++
          (if hasEscalatorOutageText fullText then
            [syntheticEscalatorOutage header postedAt expiresAt] else []))) ∧
    (∀ s, s ∉ stations →
      List.lookup s (detectEquipmentOutages fullText stations m header postedAt
          expiresAt).outagesByStation = List.lookup s m) ∧
    (detectEquipmentOutages fullText stations m header postedAt
        expiresAt).elevatorOutages =
      (if hasElevatorOutageText fullText then stations.length else 0) ∧
    (detectEquipmentOutages fullText stations m header postedAt
        expiresAt).escalatorOutages =
      (if hasEscalatorOutageText fullText then stations.length else 0) := by
  unfold detectEquipmentOutages
  dsimp only
  by_cases hne : stations = []
  · subst hne
    rw [if_neg (by simp)]
    refine ⟨by simp, fun s _ => rfl, ?_, ?_⟩ <;>
      by_cases h : hasElevatorOutageText fullText = true <;>
      by_cases h2 : hasEscalatorOutageText fullText = true <;> simp [h, h2]
  · have hcond : ((hasElevatorOutageText fullText || hasEscalatorOutageText fullText) &&
        decide (0 < stations.length)) = true := by
      rcases hkw with hk | hk <;>
        simp [hk, List.length_pos, hne]
    rw [if_pos hcond]
    obtain ⟨h1, h2, h3, h4⟩ :=
      detectFold_spec (hasElevatorOutageText fullText) (hasEscalatorOutageText fullText)
        header postedAt expiresAt stations hnd hkw ⟨0, 0, m⟩
    exact ⟨h1, h2, by simpa using h3, by simpa using h4⟩

/-- Witness for C7: the text "Elevator out of service at Main St" with the
single resolved station "main-st" and an empty object yields exactly one
elevator outage for "main-st" and zero escalator outages. -/
theorem C7_witness :
    (∀ s ∈ ["main-st"],
      List.lookup s (detectEquipmentOutages "Elevator out of service at Main St"
          ["main-st"] [] "Elevator out of service at Main St" "2024-05-01T00:00:00Z"
          none).outagesByStation =
        some ((List.lookup s ([] : OutageMap)).getD [] ++
          (if hasElevatorOutageText "Elevator out of service at Main St" then
            [syntheticElevatorOutage "Elevator out of service at Main St"
              "2024-05-01T00:00:00Z" none] else []) ++
          (if hasEscalatorOutageText "Elevator out of service at Main St" then
            [syntheticEscalatorOutage "Elevator out of service at Main St"
              "2024-05-01T00:00:00Z" none] else []))) ∧
    (∀ s, s ∉ ["main-st"] →
      List.lookup s (detectEquipmentOutages "Elevator out of service at Main St"
          ["main-st"] [] "Elevator out of service at Main St" "2024-05-01T00:00:00Z"
          none).outagesByStation = List.lookup s ([] : OutageMap)) ∧
    (detectEquipmentOutages "Elevator out of service at Main St" ["main-st"] []
        "Elevator out of service at Main St" "2024-05-01T00:00:00Z"
        none).elevatorOutages =
      (if hasElevatorOutageText "Elevator out of service at Main St" then
        ["main-st"].length else 0) ∧
    (detectEquipmentOutages "Elevator out of service at Main St" ["main-st"] []
        "Elevator out of service at Main St" "2024-05-01T00:00:00Z"
        none).escalatorOutages =
      (if hasEscalatorOutageText "Elevator out of service at Main St" then
        ["main-st"].length else 0) :=
  C7_one_outage_per_keyword_per_station "Elevator out of service at Main St"
    "Elevator out of service at Main St" "2024-05-01T00:00:00Z" none ["main-st"] []
    (by decide) (Or.inl (by decide))

/-! ## C3: line-overlap disambiguation vs. geographic distance -/

/-- **C3, counterexample.** In the batch tool, with a single route code the
overlap scores are 1 (full overlap) and 0 (zero overlap); the margin-1
filter keeps both candidates, and the distance sort then picks the
geographically closer zero-overlap candidate. -/
theorem C3_counterexample :
    lineOverlap ["A"] ["A"] = 1 ∧
    lineOverlap ["A"] ["B"] = 0 ∧
    batchPickBest ["A"] [⟨"far-full-overlap", ["A"], 500⟩, ⟨"near-zero-overlap", ["B"], 10⟩] =
      some ⟨"near-zero-overlap", ["B"], 10⟩ ∧
    (⟨"near-zero-overlap", ["B"], 10⟩ : BatchCand) ≠ ⟨"far-full-overlap", ["A"], 500⟩ := by
  refine ⟨by decide, by decide, ?_, by decide⟩
  decide

/-- **C3 (amended).** With two candidates, one of full line overlap and one
of zero overlap: the batch tool selects the full-overlap candidate for all
distances whenever its overlap score is at least 2 (at least two of the
record's route codes, counting shuttle expansions, lie in its lines); with
an overlap score of 1 the zero-overlap candidate falls within the margin-1
filter and the geographically closest candidate wins instead (see the
counterexample). The live NYC resolver, which uses no geographic data,
always selects the full-overlap candidate when the record carries at least
one mapped route code. -/
theorem C3_overlap_dominates :
    (∀ (routes : List String) (c1 c2 : BatchCand),
        2 ≤ lineOverlap routes c1.lines → lineOverlap routes c2.lines = 0 →
        batchPickBest routes [c1, c2] = some c1 ∧
        batchPickBest routes [c2, c1] = some c1) ∧
    (∀ (c1 c2 : NycCand) (trainno : String),
        trainno ≠ "" →
        nycOutageLines trainno ≠ [] →
        (∀ r ∈ nycOutageLines trainno, r ∈ c1.lines) →
        (∀ l ∈ c2.lines, l ∉ nycOutageLines trainno) →
        nycMatchStation [c1, c2] trainno = some c1 ∧
        nycMatchStation [c2, c1] trainno = some c1) := by
  constructor
  · intro routes c1 c2 h1 h2
    have ht : (decide ((lineOverlap routes c1.lines : Int) - 1 ≤
        (lineOverlap routes c1.lines : Int)) &&
        decide ((0 : Int) ≤ (lineOverlap routes c1.lines : Int))) = true := by
      simp only [Bool.and_eq_true, decide_eq_true_eq]
      omega
    have hf : (decide ((lineOverlap routes c1.lines : Int) - 1 ≤ ((0 : Nat) : Int)) &&
        decide ((0 : Int) ≤ ((0 : Nat) : Int))) = false := by
      simp only [Bool.and_eq_false_iff]
      left
      simp only [decide_eq_false_iff_not]
      omega
    constructor
    · unfold batchPickBest
      dsimp only
      simp only [List.map_cons, List.map_nil, List.foldl_cons, List.foldl_nil, h2,
        Nat.zero_max, Nat.max_zero]
      simp only [List.filter_cons, List.filter_nil]
      rw [ht, hf]
      rfl
    · unfold batchPickBest
      dsimp only
      simp only [List.map_cons, List.map_nil, List.foldl_cons, List.foldl_nil, h2,
        Nat.zero_max, Nat.max_zero]
      simp only [List.filter_cons, List.filter_nil]
      rw [ht, hf]
      rfl
  · intro c1 c2 trainno htr hlines hfull hzero
    have hover1 : 0 < (c1.lines.filter
        (fun l => (nycOutageLines trainno).contains l)).length := by
      obtain ⟨r, hr⟩ := List.exists_mem_of_ne_nil _ hlines
      have hrc1 : r ∈ c1.lines := hfull r hr
      have hmemf : r ∈ c1.lines.filter (fun l => (nycOutageLines trainno).contains l) :=
        List.mem_filter.mpr ⟨hrc1, List.elem_eq_true_of_mem hr⟩
      exact List.length_pos.mpr (List.ne_nil_of_mem hmemf)
    have hover2 : (c2.lines.filter
        (fun l => (nycOutageLines trainno).contains l)).length = 0 := by
      rw [List.length_eq_zero, List.filter_eq_nil_iff]
      intro l hl hcon
      exact hzero l hl (List.elem_iff.mp hcon)
    constructor
    · unfold nycMatchStation
      dsimp only
      rw [if_pos ⟨by simp, htr⟩]
      simp only [List.map_cons, List.map_nil, List.foldl_cons, List.foldl_nil]
      have hlt : ¬((c1.lines.filter
            (fun l => (nycOutageLines trainno).contains l)).length <
          (c2.lines.filter (fun l => (nycOutageLines trainno).contains l)).length) := by
        omega
      rw [if_neg hlt]
      dsimp only
      rw [ite_self]
    · unfold nycMatchStation
      dsimp only
      rw [if_pos ⟨by simp, htr⟩]
      simp only [List.map_cons, List.map_nil, List.foldl_cons, List.foldl_nil]
      have hlt : (c2.lines.filter
            (fun l => (nycOutageLines trainno).contains l)).length <
          (c1.lines.filter (fun l => (nycOutageLines trainno).contains l)).length := by
        omega
      rw [if_pos hlt]
      dsimp only
      rw [if_pos hover1]

/-- Witness for C3: a two-route record (batch side) and a one-route record
(live side), against a zero-overlap competitor in both orders. -/
theorem C3_witness :
    (batchPickBest ["A", "C"] [⟨"u", ["A", "C"], 999⟩, ⟨"v", ["B"], 1⟩] =
        some ⟨"u", ["A", "C"], 999⟩ ∧
      batchPickBest ["A", "C"] [⟨"v", ["B"], 1⟩, ⟨"u", ["A", "C"], 999⟩] =
        some ⟨"u", ["A", "C"], 999⟩) ∧
    (nycMatchStation [⟨"p", ["A"]⟩, ⟨"q", ["B"]⟩] "A" = some ⟨"p", ["A"]⟩ ∧
      nycMatchStation [⟨"q", ["B"]⟩, ⟨"p", ["A"]⟩] "A" = some ⟨"p", ["A"]⟩) :=
  ⟨C3_overlap_dominates.1 ["A", "C"] ⟨"u", ["A", "C"], 999⟩ ⟨"v", ["B"], 1⟩
      (by decide) (by decide),
    C3_overlap_dominates.2 ⟨"p", ["A"]⟩ ⟨"q", ["B"]⟩ "A" (by decide) (by decide)
      (by decide) (by decide)⟩

/-! ## Character-level lemmas for the normalizers -/

theorem char_ofNat_add32_toNat (n : Nat) (h1 : 65 ≤ n) (h2 : n ≤ 90) :
    (Char.ofNat (n + 32)).toNat = n + 32 := by
  interval_cases n <;> decide

theorem toLower_idem (c : Char) : Char.toLower (Char.toLower c) = Char.toLower c := by
  simp only [Char.toLower]
  by_cases h : c.toNat ≥ 65 ∧ c.toNat ≤ 90
  · rw [if_pos h]
    have ht : (Char.ofNat (c.toNat + 32)).toNat = c.toNat + 32 :=
      char_ofNat_add32_toNat _ h.1 h.2
    rw [if_neg (by rw [ht]; omega)]
  · rw [if_neg h, if_neg h]

theorem toLower_ne_of_ne (c x : Char) (hx : 122 < x.toNat ∨ x.toNat < 97) (h : c ≠ x) :
    Char.toLower c ≠ x := by
  simp only [Char.toLower]
  by_cases hc : c.toNat ≥ 65 ∧ c.toNat ≤ 90
  · rw [if_pos hc]
    intro hEq
    have hN := congrArg Char.toNat hEq
    rw [char_ofNat_add32_toNat _ hc.1 hc.2] at hN
    omega
  · rw [if_neg hc]
    exact h

/-! ## Membership lemmas for the normalizer stages -/

theorem afterCloseParen_sublist (l : List Char) : List.Sublist (afterCloseParen l) l := by
  unfold afterCloseParen
  exact ((List.drop_suffix _ _).sublist).trans ((List.dropWhile_suffix _).sublist)

theorem mem_stripParensGo (fuel : Nat) (l : List Char) (c : Char) :
    c ∈ stripParensGo fuel l → c ∈ l := by
  induction fuel generalizing l with
  | zero =>
    intro h
    cases l with
    | nil => simpa [stripParensGo] using h
    | cons a rest => simpa [stripParensGo] using h
  | succ fuel ih =>
    intro h
    cases l with
    | nil => simpa [stripParensGo] using h
    | cons a rest =>
      simp only [stripParensGo] at h
      by_cases hc : a = '(' ∧ rest.contains ')'
      · rw [if_pos hc] at h
        exact List.mem_cons_of_mem a ((afterCloseParen_sublist rest).subset (ih _ h))
      · rw [if_neg hc] at h
        rcases List.mem_cons.mp h with rfl | h2
        · exact List.mem_cons_self _ _
        · exact List.mem_cons_of_mem a (ih _ h2)

theorem mem_stripParens (l : List Char) (c : Char) : c ∈ stripParens l → c ∈ l :=
  mem_stripParensGo _ _ _

theorem mem_collapseWs (l : List Char) (c : Char) :
    c ∈ collapseWs l → c ∈ l ∨ c = ' ' := by
  induction l with
  | nil =>
    intro h
    simp [collapseWs] at h
  | cons a rest ih =>
    cases rest with
    | nil =>
      intro h
      by_cases hs : isJsSpace a = true
      · simp [collapseWs, hs] at h
        right
        exact h
      · simp [collapseWs, hs] at h
        left
        simp [h]
    | cons d rest2 =>
      intro h
      simp only [collapseWs] at h
      by_cases hsc : isJsSpace a = true ∧ isJsSpace d = true
      · rw [if_pos hsc] at h
        rcases ih h with hm | hsp
        · exact Or.inl (List.mem_cons_of_mem a hm)
        · exact Or.inr hsp
      · rw [if_neg hsc] at h
        rcases List.mem_cons.mp h with rfl | h2
        · by_cases hs : isJsSpace a = true
          · rw [if_pos hs]
            exact Or.inr rfl
          · rw [if_neg hs]
            exact Or.inl (List.mem_cons_self _ _)
        · rcases ih h2 with hm | hsp
          · exact Or.inl (List.mem_cons_of_mem a hm)
          · exact Or.inr hsp

theorem jsTrim_sublist (l : List Char) : List.Sublist (jsTrim l) l := by
  unfold jsTrim
  exact ((List.rdropWhile_prefix _ _).sublist).trans ((List.dropWhile_suffix _).sublist)

theorem mem_jsTrim (l : List Char) (c : Char) : c ∈ jsTrim l → c ∈ l :=
  fun h => (jsTrim_sublist l).subset h

/-! ## `NoPair` lemmas -/

theorem noPair_stripParensGo (fuel : Nat) (l : List Char) (h : l.length ≤ fuel) :
    NoPair (stripParensGo fuel l) := by
  induction fuel generalizing l with
  | zero =>
    have h0 : l = [] := List.eq_nil_of_length_eq_zero (Nat.le_zero.mp h)
    subst h0
    simp [stripParensGo]
  | succ fuel ih =>
    cases l with
    | nil => simp [stripParensGo]
    | cons a rest =>
      have hr : rest.length ≤ fuel := by simpa using h
      simp only [stripParensGo]
      by_cases hc : a = '(' ∧ rest.contains ')'
      · rw [if_pos hc]
        exact ih _ (le_trans (afterCloseParen_length_le rest) hr)
      · rw [if_neg hc]
        refine List.pairwise_cons.mpr ⟨?_, ih _ hr⟩
        intro b hb hab
        exact hc ⟨hab.1, List.elem_eq_true_of_mem (hab.2 ▸ mem_stripParensGo fuel rest b hb)⟩

theorem noPair_stripParens (l : List Char) : NoPair (stripParens l) :=
  noPair_stripParensGo _ _ le_rfl

theorem stripParens_of_noPair (l : List Char) (h : NoPair l) : stripParens l = l := by
  induction l with
  | nil => rfl
  | cons a rest ih =>
    rw [stripParens_cons]
    rcases List.pairwise_cons.mp h with ⟨hhead, htail⟩
    rw [if_neg ?_, ih htail]
    rintro ⟨rfl, hcon⟩
    exact hhead ')' (List.elem_iff.mp hcon) ⟨rfl, rfl⟩

theorem noPair_collapseWs (l : List Char) (h : NoPair l) : NoPair (collapseWs l) := by
  induction l with
  | nil => simpa [collapseWs] using h
  | cons a rest ih =>
    cases rest with
    | nil =>
      by_cases hs : isJsSpace a = true <;> simp [collapseWs, hs]
    | cons d rest2 =>
      rcases List.pairwise_cons.mp h with ⟨hhead, htail⟩
      have ih2 := ih htail
      simp only [collapseWs]
      by_cases hsc : isJsSpace a = true ∧ isJsSpace d = true
      · rw [if_pos hsc]
        exact ih2
      · rw [if_neg hsc]
        refine List.pairwise_cons.mpr ⟨?_, ih2⟩
        intro b hb hab
        by_cases hs : isJsSpace a = true
        · rw [if_pos hs] at hab
          exact absurd hab.1 (by decide)
        · rw [if_neg hs] at hab
          rcases mem_collapseWs _ _ hb with hmem | hsp
          · exact hhead b hmem ⟨hab.1, hab.2⟩
          · rw [hab.2] at hsp
            exact absurd hsp (by decide)

theorem noPair_jsTrim (l : List Char) (h : NoPair l) : NoPair (jsTrim l) :=
  List.Pairwise.sublist (jsTrim_sublist l) h

/-! ## Whitespace-collapsing lemmas -/

theorem collapseWs_space_eq (l : List Char) (c : Char) (hc : c ∈ collapseWs l)
    (hs : isJsSpace c = true) : c = ' ' := by
  induction l with
  | nil => simp [collapseWs] at hc
  | cons a rest ih =>
    cases rest with
    | nil =>
      by_cases hsa : isJsSpace a = true
      · simp [collapseWs, hsa] at hc
        exact hc
      · simp [collapseWs, hsa] at hc
        subst hc
        exact absurd hs hsa
    | cons d rest2 =>
      simp only [collapseWs] at hc
      by_cases hsc : isJsSpace a = true ∧ isJsSpace d = true
      · rw [if_pos hsc] at hc
        exact ih hc
      · rw [if_neg hsc] at hc
        rcases List.mem_cons.mp hc with rfl | h2
        · by_cases hsa : isJsSpace a = true
          · rw [if_pos hsa]
          · rw [if_neg hsa] at hs
            exact absurd hs hsa
        · exact ih h2

theorem collapseWs_head_eq (d : Char) (rest : List Char) (hd : ¬ isJsSpace d = true) :
    (collapseWs (d :: rest)).head? = some d := by
  cases rest with
  | nil => simp [collapseWs, hd]
  | cons e rest2 =>
    simp only [collapseWs]
    rw [if_neg (fun hh => hd hh.1), if_neg hd]
    rfl

theorem noWsRun_collapseWs (l : List Char) : NoWsRun (collapseWs l) := by
  induction l with
  | nil => simp [collapseWs]
  | cons a rest ih =>
    cases rest with
    | nil =>
      by_cases hs : isJsSpace a = true <;> simp [collapseWs, hs]
    | cons d rest2 =>
      simp only [collapseWs]
      by_cases hsc : isJsSpace a = true ∧ isJsSpace d = true
      · rw [if_pos hsc]
        exact ih
      · rw [if_neg hsc]
        refine List.chain'_cons'.mpr ⟨?_, ih⟩
        intro y hy
        by_cases hsa : isJsSpace a = true
        · have hd : ¬ isJsSpace d = true := fun h => hsc ⟨hsa, h⟩
          rw [collapseWs_head_eq d rest2 hd] at hy
          obtain rfl : d = y := by simpa using hy
          rw [if_pos hsa]
          exact fun hcon => hd hcon.2
        · rw [if_neg hsa]
          exact fun hcon => hsa hcon.1

theorem collapseWs_fix (l : List Char)
    (hsp : ∀ c ∈ l, isJsSpace c = true → c = ' ')
    (hrun : NoWsRun l) : collapseWs l = l := by
  induction l with
  | nil => rfl
  | cons a rest ih =>
    cases rest with
    | nil =>
      by_cases hs : isJsSpace a = true
      · have ha := hsp a (by simp) hs
        simp [collapseWs, hs, ha]
      · simp [collapseWs, hs]
    | cons d rest2 =>
      simp only [collapseWs]
      have hnadj : ¬(isJsSpace a = true ∧ isJsSpace d = true) :=
        (List.chain'_cons.mp hrun).1
      rw [if_neg hnadj]
      have htail : collapseWs (d :: rest2) = d :: rest2 :=
        ih (fun c hc h => hsp c (List.mem_cons_of_mem a hc) h)
          (List.chain'_cons.mp hrun).2
      rw [htail]
      by_cases hs : isJsSpace a = true
      · rw [if_pos hs, hsp a (by simp) hs]
      · rw [if_neg hs]

/-! ## Trimming lemmas -/

theorem jsTrim_infix_self (l : List Char) : List.IsInfix (jsTrim l) l := by
  unfold jsTrim
  exact ((List.rdropWhile_prefix _ _).isInfix).trans ((List.dropWhile_suffix _).isInfix)

theorem noWsRun_jsTrim (l : List Char) (h : NoWsRun l) : NoWsRun (jsTrim l) :=
  List.Chain'.infix h (jsTrim_infix_self l)

theorem dropWhile_head?_false (p : Char → Bool) (l : List Char) (c : Char)
    (h : (l.dropWhile p).head? = some c) : p c = false := by
  have hne : l.dropWhile p ≠ [] := by
    intro h0
    rw [h0] at h
    cases h
  have hnot := List.head_dropWhile_not p l hne
  have hc : c = (l.dropWhile p).head hne := by
    rw [List.head?_eq_head hne] at h
    exact (Option.some_inj.mp h).symm
  rw [hc]
  simpa using hnot

theorem dropWhile_eq_self_of_head (p : Char → Bool) (l : List Char)
    (h : ∀ c, l.head? = some c → p c = false) : l.dropWhile p = l := by
  cases l with
  | nil => rfl
  | cons a rest =>
    rw [List.dropWhile_cons, if_neg (by simp [h a rfl])]

theorem jsTrim_idem (l : List Char) : jsTrim (jsTrim l) = jsTrim l := by
  unfold jsTrim
  set z := l.dropWhile isJsSpace with hz
  have hdrop : (z.rdropWhile isJsSpace).dropWhile isJsSpace = z.rdropWhile isJsSpace := by
    apply dropWhile_eq_self_of_head
    intro c hc
    have hne : z.rdropWhile isJsSpace ≠ [] := by
      intro h0
      rw [h0] at hc
      cases hc
    obtain ⟨b, ys, hby⟩ := List.exists_cons_of_ne_nil hne
    obtain ⟨t, ht⟩ := List.rdropWhile_prefix isJsSpace z
    rw [hby] at hc ht
    have hzc : z.head? = some c := by
      rw [← ht]
      simpa using hc
    exact dropWhile_head?_false isJsSpace l c (by rw [← hz]; exact hzc)
  rw [hdrop]
  exact List.rdropWhile_idempotent _ _

/-! ## The master idempotence lemma -/

theorem map_fix_of_mem (f : Char → Char) (l : List Char) (h : ∀ c ∈ l, f c = c) :
    l.map f = l := by
  induction l with
  | nil => rfl
  | cons a rest ih =>
    simp only [List.map_cons]
    rw [h a (by simp), ih (fun c hc => h c (by simp [hc]))]

theorem map_congr_of_mem (f g : Char → Char) (l : List Char)
    (h : ∀ c ∈ l, f c = g c) : l.map f = l.map g := by
  induction l with
  | nil => rfl
  | cons a rest ih =>
    simp only [List.map_cons]
    rw [h a (by simp), ih (fun c hc => h c (by simp [hc]))]

/-- Trim-collapse-strip applied to a character-mapped list is idempotent,
provided the character map is idempotent and fixes the space character. -/
theorem normStage_idem (f : Char → Char) (hf : ∀ c, f (f c) = f c) (hsp : f ' ' = ' ')
    (l : List Char) :
    jsTrim (collapseWs (stripParens
        ((jsTrim (collapseWs (stripParens (l.map f)))).map f))) =
      jsTrim (collapseWs (stripParens (l.map f))) := by
  set x := l.map f with hx
  set y := jsTrim (collapseWs (stripParens x)) with hy
  have hmapfix : y.map f = y := by
    apply map_fix_of_mem
    intro c hc
    rw [hy] at hc
    have h1 := mem_jsTrim _ _ hc
    rcases mem_collapseWs _ _ h1 with h2 | rfl
    · have h3 := mem_stripParens _ _ h2
      rw [hx] at h3
      obtain ⟨d, _, rfl⟩ := List.mem_map.mp h3
      exact hf d
    · exact hsp
  rw [hmapfix]
  have hnp : NoPair y := by
    rw [hy]
    exact noPair_jsTrim _ (noPair_collapseWs _ (noPair_stripParens x))
  rw [stripParens_of_noPair y hnp]
  have hspc : ∀ c ∈ y, isJsSpace c = true → c = ' ' := by
    intro c hc hs
    rw [hy] at hc
    exact collapseWs_space_eq _ c (mem_jsTrim _ _ hc) hs
  have hrun : NoWsRun y := by
    rw [hy]
    exact noWsRun_jsTrim _ (noWsRun_collapseWs (stripParens x))
  rw [collapseWs_fix y hspc hrun]
  rw [hy]
  exact jsTrim_idem (collapseWs (stripParens x))

/-! ## C5: idempotence of the two normalizers -/

theorem fLive_idem (c : Char) :
    slashLiveToSpace (dashToSpace (Char.toLower
        (slashLiveToSpace (dashToSpace (Char.toLower c))))) =
      slashLiveToSpace (dashToSpace (Char.toLower c)) := by
  by_cases hd : isDashChar (Char.toLower c) = true
  · have h1 : dashToSpace (Char.toLower c) = ' ' := by simp [dashToSpace, hd]
    rw [h1]
    decide
  · have h1 : dashToSpace (Char.toLower c) = Char.toLower c := by simp [dashToSpace, hd]
    rw [h1]
    by_cases hsl : (Char.toLower c = '/' ∨ Char.toLower c = '\\')
    · have h2 : slashLiveToSpace (Char.toLower c) = ' ' := by simp [slashLiveToSpace, hsl]
      rw [h2]
      decide
    · have h2 : slashLiveToSpace (Char.toLower c) = Char.toLower c := by
        simp only [slashLiveToSpace, if_neg hsl]
      rw [h2, toLower_idem, h1, h2]

theorem fBatch_idem (c : Char) :
    slashBatchToSpace (quoteToStraight (dashToSpace (Char.toLower
        (slashBatchToSpace (quoteToStraight (dashToSpace (Char.toLower c))))))) =
      slashBatchToSpace (quoteToStraight (dashToSpace (Char.toLower c))) := by
  by_cases hd : isDashChar (Char.toLower c) = true
  · have h1 : dashToSpace (Char.toLower c) = ' ' := by simp [dashToSpace, hd]
    rw [h1]
    decide
  · have h1 : dashToSpace (Char.toLower c) = Char.toLower c := by simp [dashToSpace, hd]
    rw [h1]
    by_cases hq : (Char.toLower c = '‘' ∨ Char.toLower c = '’')
    · have h2 : quoteToStraight (Char.toLower c) = '\'' := by simp [quoteToStraight, hq]
      rw [h2]
      decide
    · have h2 : quoteToStraight (Char.toLower c) = Char.toLower c := by
        simp only [quoteToStraight, if_neg hq]
      rw [h2]
      by_cases hsl : Char.toLower c = '/'
      · have h3 : slashBatchToSpace (Char.toLower c) = ' ' := by simp [slashBatchToSpace, hsl]
        rw [h3]
        decide
      · have h3 : slashBatchToSpace (Char.toLower c) = Char.toLower c := by
          simp only [slashBatchToSpace, if_neg hsl]
        rw [h3, toLower_idem, h1, h2, h3]

theorem normalizeStationNameL_as_map (l : List Char) :
    normalizeStationNameL l =
      jsTrim (collapseWs (stripParens
        (l.map (fun c => slashLiveToSpace (dashToSpace (Char.toLower c)))))) := by
  unfold normalizeStationNameL
  rw [List.map_map, List.map_map]
  rfl

theorem normalizeNameL_as_map (l : List Char) :
    normalizeNameL l =
      jsTrim (collapseWs (stripParens
        (l.map (fun c =>
          slashBatchToSpace (quoteToStraight (dashToSpace (Char.toLower c))))))) := by
  unfold normalizeNameL
  rw [List.map_map, List.map_map, List.map_map]
  rfl

/-- **C5.** Name normalization is idempotent for both normalizers: for
every string s, normalize(normalize(s)) = normalize(s), for the live
`normalizeStationName` and for the batch tool's `normalizeName`. -/
theorem C5_normalization_idempotent :
    (∀ s : String, normalizeStationName (normalizeStationName s) = normalizeStationName s) ∧
    (∀ s : String, normalizeName (normalizeName s) = normalizeName s) := by
  constructor
  · intro s
    have key : normalizeStationNameL (normalizeStationNameL s.data) =
        normalizeStationNameL s.data := by
      simp only [normalizeStationNameL_as_map]
      exact normStage_idem (fun c => slashLiveToSpace (dashToSpace (Char.toLower c)))
        fLive_idem (by decide) s.data
    exact congrArg String.mk key
  · intro s
    have key : normalizeNameL (normalizeNameL s.data) = normalizeNameL s.data := by
      simp only [normalizeNameL_as_map]
      exact normStage_idem
        (fun c => slashBatchToSpace (quoteToStraight (dashToSpace (Char.toLower c))))
        fBatch_idem (by decide) s.data
    exact congrArg String.mk key

/-! ## C4: agreement of the two normalizers -/

/-- **C4, counterexample.** On a curly apostrophe the two normalizers
differ: the batch tool straightens it, the live resolver leaves it. -/
theorem C4_counterexample : normalizeName "’" ≠ normalizeStationName "’" := by
  decide

/-- **C4 (amended).** The two normalizers agree on every string containing
no curly quote (U+2018, U+2019) and no backslash; they differ exactly in
that the batch tool straightens curly quotes (the live resolver does not)
and the live resolver additionally replaces backslashes by spaces (the
batch tool does not). -/
theorem C4_normalizers_agree (s : String)
    (h : ∀ c ∈ s.data, c ≠ '‘' ∧ c ≠ '’' ∧ c ≠ '\\') :
    normalizeName s = normalizeStationName s := by
  have hmap : s.data.map
      (fun c => slashBatchToSpace (quoteToStraight (dashToSpace (Char.toLower c)))) =
      s.data.map (fun c => slashLiveToSpace (dashToSpace (Char.toLower c))) := by
    apply map_congr_of_mem
    intro d hd
    obtain ⟨hq1, hq2, hbs⟩ := h d hd
    have hxq : quoteToStraight (dashToSpace (Char.toLower d)) = dashToSpace (Char.toLower d) := by
      by_cases hdash : isDashChar (Char.toLower d) = true
      · have h1 : dashToSpace (Char.toLower d) = ' ' := by simp [dashToSpace, hdash]
        rw [h1]
        decide
      · have h1 : dashToSpace (Char.toLower d) = Char.toLower d := by simp [dashToSpace, hdash]
        rw [h1]
        have hn1 : Char.toLower d ≠ '‘' := toLower_ne_of_ne d _ (by decide) hq1
        have hn2 : Char.toLower d ≠ '’' := toLower_ne_of_ne d _ (by decide) hq2
        simp only [quoteToStraight]
        rw [if_neg (fun hor => Or.elim hor hn1 hn2)]
    have hxb : dashToSpace (Char.toLower d) ≠ '\\' := by
      by_cases hdash : isDashChar (Char.toLower d) = true
      · have h1 : dashToSpace (Char.toLower d) = ' ' := by simp [dashToSpace, hdash]
        rw [h1]
        decide
      · have h1 : dashToSpace (Char.toLower d) = Char.toLower d := by simp [dashToSpace, hdash]
        rw [h1]
        exact toLower_ne_of_ne d _ (by decide) hbs
    rw [hxq]
    simp only [slashBatchToSpace, slashLiveToSpace]
    by_cases hsl : dashToSpace (Char.toLower d) = '/'
    · rw [if_pos hsl, if_pos (Or.inl hsl)]
    · rw [if_neg hsl, if_neg (fun hor => Or.elim hor hsl hxb)]
  have key : normalizeNameL s.data = normalizeStationNameL s.data := by
    rw [normalizeNameL_as_map, normalizeStationNameL_as_map, hmap]
  exact congrArg String.mk key

/-- Witness for C4: a string exercising dashes, slashes, parentheses and
mixed case, containing no curly quote and no backslash. -/
theorem C4_witness :
    normalizeName "Main St–Lower/Mezz (B side)" =
      normalizeStationName "Main St–Lower/Mezz (B side)" :=
  C4_normalizers_agree "Main St–Lower/Mezz (B side)" (by decide)
